import Mathlib

/-!
Verification development for the `delaunay-triangulation` repository
(point.js, queue.js, triangle.js, triangulation.js, index.html).

The JavaScript code is shallowly embedded over an arbitrary linearly
ordered field `K` standing for exact (infinite-precision) arithmetic on
JS numbers.  Conventions used throughout:

* A `Point` object is identified by a numeric id (`Nat`); its coordinates
  live in a separate association list.  This mirrors the identity-based
  equality the code relies on (`indexOf` on point arrays compares object
  references, never coordinates).
* Triangle objects are likewise arena-allocated: an association list from
  cell ids to `Cell` records.  Mutation of a triangle becomes a functional
  update of the arena at its id.  `splitTriangle` removes the split
  triangle from the arena: after the three `replaceNeighbor` calls no
  reachable triangle references it any more, which is exactly the
  JavaScript situation where the old object survives only as garbage.
* JS division by zero produces `Infinity`/`NaN`.  Every quantity the code
  derives by division (circumcenter coordinates, barycentric coordinates)
  is modelled as `Option K`, `none` standing for such a non-finite value.
  The only consumers of these quantities are comparisons
  (`strictlyLessThan`, the `u >= 0 && v >= 0 && u+v <= 1` containment
  test), and in JS every such comparison evaluates to `false` whenever a
  non-finite value is involved: for a zero denominator either both
  numerator and denominator vanish (giving `NaN`, all comparisons false)
  or the quotient is `±Infinity`, in which case the derived squared
  distance and squared radius are both `+Infinity`/`NaN` and
  `d + eps*|d| < r` is again false.  The `Option` model therefore makes
  those comparisons `false` on `none`, which coincides with the JS
  behaviour on every control path exercised here.
* Loops whose termination is not structural carry an explicit fuel
  parameter; theorems quantify over the fuel.  The search loop of
  `findContainingTriangle` genuinely may diverge (see the C3 theorem), so
  fuel is unavoidable there.
* The lazily cached derived geometry (`getCircumcenter`, `getRadius`) is
  modelled by recomputation: every mutation of a forming point goes
  through `setPoint`, which invalidates the caches, so a cached value is
  never observably stale.
-/

namespace DT

/-- A JS `Point`: an (x, y, z) coordinate triple. -/
structure Pt (K : Type) where
  x : K
  y : K
  z : K
deriving DecidableEq

section Geometry

variable {K : Type} [LinearOrderedField K]

/-- point.js `calculateDistanceSquarePlane`: squared distance of the two
points projected into the x-y plane. -/
def calculateDistanceSquarePlane (p1 p2 : Pt K) : K :=
  (p2.x - p1.x) * (p2.x - p1.x) + (p2.y - p1.y) * (p2.y - p1.y)

/-- JS `Math.abs`. -/
def jsAbs (x : K) : K := if x < 0 then -x else x

/-- triangle.js `strictlyLessThan`: `x + 0.00001 * Math.abs(x) < y`,
on finite numbers. -/
def strictlyLessThan (x y : K) : Bool :=
  decide (x + (1 / 100000) * jsAbs x < y)

/-- `strictlyLessThan` lifted to the `Option` (non-finite aware) numbers;
false when a non-finite value is involved (see the header comment). -/
def strictlyLessThanO : Option K → Option K → Bool
  | some x, some y => strictlyLessThan x y
  | _, _ => false

/-- Denominator of the linear system solved by
triangle.js `calculateCircumcentre`. -/
def circumDenom (p1 p2 p3 : Pt K) : K :=
  (2 * p2.x - 2 * p1.x) * p3.y + (2 * p1.x - 2 * p3.x) * p2.y +
    (2 * p3.x - 2 * p2.x) * p1.y

/-- Numerator of the `u` (x) coordinate in `calculateCircumcentre`. -/
def circumUNum (p1 p2 p3 : Pt K) : K :=
  -((p2.y - p1.y) * (p3.y * p3.y) +
    (-(p2.y * p2.y) + p1.y * p1.y - p2.x * p2.x + p1.x * p1.x) * p3.y +
    p1.y * (p2.y * p2.y) +
    (-(p1.y * p1.y) + p3.x * p3.x - p1.x * p1.x) * p2.y +
    (p2.x * p2.x - p3.x * p3.x) * p1.y)

/-- Numerator of the `v` (y) coordinate in `calculateCircumcentre`. -/
def circumVNum (p1 p2 p3 : Pt K) : K :=
  (p2.x - p1.x) * (p3.y * p3.y) + (p1.x - p3.x) * (p2.y * p2.y) +
    (p3.x - p2.x) * (p1.y * p1.y) + (p2.x - p1.x) * (p3.x * p3.x) +
    (p1.x * p1.x - p2.x * p2.x) * p3.x + p1.x * (p2.x * p2.x) -
    p1.x * p1.x * p2.x

/-- Circumcenter coordinates of `calculateCircumcentre`, each `none` when
the computation produces a non-finite value. -/
structure CPt (K : Type) where
  x : Option K
  y : Option K
  z : Option K
deriving DecidableEq

/-- JS division, `none` on a zero denominator (`NaN`/`Infinity`). -/
def nadiv (x y : K) : Option K := if y = 0 then none else some (x / y)

/-- triangle.js `calculateCircumcentre`.  The planar coordinates `u`, `v`
share one denominator; `w` interpolates z with a second linear system when
the three z values are not all equal. -/
def calculateCircumcentre (p1 p2 p3 : Pt K) : CPt K :=
  let d := circumDenom p1 p2 p3
  let u := nadiv (circumUNum p1 p2 p3) d
  let v := nadiv (circumVNum p1 p2 p3) d
  let w : Option K :=
    if p1.z = p2.z ∧ p2.z = p3.z then some p1.z
    else
      match u, v with
      | some uu, some vv =>
        let r := nadiv (-(-(p1.x * p3.y) + uu * p3.y + p3.x * (p1.y - vv)))
          (p3.x * p2.y - p2.x * p3.y)
        let s := nadiv (-(p1.x * p2.y) + uu * p2.y + p2.x * (p1.y - vv))
          (p3.x * p2.y - p2.x * p3.y)
        match r, s with
        | some rr, some ss => some (p1.z + rr * p2.z + ss * p3.z)
        | _, _ => none
      | _, _ => none
  ⟨u, v, w⟩

/-- Squared planar distance from `calculateCircumcentre`'s result to a
point (`Triangle.distanceToCircumcenter`), non-finite aware. -/
def distToCircumcenterO (p1 p2 p3 p : Pt K) : Option K :=
  match (calculateCircumcentre p1 p2 p3).x, (calculateCircumcentre p1 p2 p3).y with
  | some u, some v => some ((p.x - u) * (p.x - u) + (p.y - v) * (p.y - v))
  | _, _ => none

/-- `Triangle.getRadius`: squared distance from the circumcenter to the
first forming point. -/
def radiusO (p1 p2 p3 : Pt K) : Option K :=
  distToCircumcenterO p1 p2 p3 p1

/-- Denominator of the containment linear system in
triangle.js `isPointInTriangle`. -/
def containDenom (p1 p2 p3 : Pt K) : K :=
  p1.x * (p3.y - p2.y) + p2.x * (p1.y - p3.y) + p3.x * (p2.y - p1.y)

/-- Numerator of `u` in `isPointInTriangle`. -/
def containUNum (p1 p2 p3 : Pt K) (x y : K) : K :=
  -(x * (p3.y - p1.y) + p1.x * (y - p3.y) + p3.x * (p1.y - y))

/-- Numerator of `v` in `isPointInTriangle`. -/
def containVNum (p1 p2 p3 : Pt K) (x y : K) : K :=
  x * (p2.y - p1.y) + p1.x * (y - p2.y) + p2.x * (p1.y - y)

/-- triangle.js `isPointInTriangle`: barycentric test
`u >= 0 && v >= 0 && u + v <= 1` on the planar projection; `false` when
the division is non-finite (see header comment). -/
def isPointInTriangle (p1 p2 p3 : Pt K) (x y : K) : Bool :=
  match nadiv (containUNum p1 p2 p3 x y) (containDenom p1 p2 p3),
      nadiv (containVNum p1 p2 p3 x y) (containDenom p1 p2 p3) with
  | some u, some v => decide (0 ≤ u) && decide (0 ≤ v) && decide (u + v ≤ 1)
  | _, _ => false

end Geometry

/-! ## queue.js — the binary-heap priority queue

`elements[0]` is a sentinel that is never read on any guarded path; the
live heap starts at index 1.  `qget` reads with a default (JS would yield
`undefined`), `jsSetList l i x` models the JS array store `l[i] = x`,
which overwrites an existing slot and appends when `i` equals the current
length (the only out-of-range index the code can produce). -/

section Queue

variable {K : Type} [LinearOrderedField K] {α : Type} [Inhabited α]

/-- The heap state: the backing JS array, sentinel included. -/
structure JsQueue (α : Type) where
  elems : List α
deriving DecidableEq

/-- A fresh queue: `this.elements = [null]`. -/
def emptyQueue : JsQueue α := ⟨[default]⟩

/-- JS array read `l[i]`. -/
def qget (l : List α) (i : Nat) : α := l.getD i default

/-- JS array store `l[i] = x`. -/
def jsSetList (l : List α) (i : Nat) (x : α) : List α :=
  if i < l.length then l.set i x else l ++ [x]

/-- queue.js `Queue.prototype.less`: `compare(e[lhs], e[rhs]) < 0`. -/
def qless (cmp : α → α → K) (l : List α) (lhs rhs : Nat) : Bool :=
  decide (cmp (qget l lhs) (qget l rhs) < 0)

/-- queue.js `Queue.prototype.swap`. -/
def qswap (l : List α) (lhs rhs : Nat) : List α :=
  (l.set lhs (qget l rhs)).set rhs (qget l lhs)

/-- queue.js `Queue.prototype.cascadeUp`.  The JS loop terminates because
the parent index `⌊i/2⌋` strictly decreases; the fuel passed by `qinsert`
(the index itself) is always sufficient. -/
def cascadeUp (cmp : α → α → K) : Nat → List α → Nat → List α
  | 0, l, _ => l
  | fuel + 1, l, index =>
    if 1 < index then
      let p := index / 2
      if qless cmp l index p then cascadeUp cmp fuel (qswap l index p) p else l
    else l

/-- queue.js `Queue.prototype.cascadeDown`.  The JS loop terminates
because the index at least doubles each round; the fuel passed by `qpop`
(the array length) is always sufficient. -/
def cascadeDown (cmp : α → α → K) : Nat → List α → Nat → List α
  | 0, l, _ => l
  | fuel + 1, l, index =>
    let size := l.length - 1
    let lc := index * 2
    let rc := index * 2 + 1
    if rc ≤ size then
      let mc := if qless cmp l lc rc then lc else rc
      if ¬ (qless cmp l index mc) then cascadeDown cmp fuel (qswap l mc index) mc
      else l
    else if lc ≤ size then
      let mc := lc
      if ¬ (qless cmp l index mc) then cascadeDown cmp fuel (qswap l mc index) mc
      else l
    else l

/-- queue.js `Queue.prototype.insert`: append, then sift up from the old
array length. -/
def qinsert (cmp : α → α → K) (q : JsQueue α) (e : α) : JsQueue α :=
  ⟨cascadeUp cmp q.elems.length (q.elems ++ [e]) q.elems.length⟩

/-- queue.js `Queue.prototype.pop`:
`value = e[1]; e[1] = e.pop(); cascadeDown(1); return value`.
Note that `e[1] = e.pop()` re-appends the JS-popped last element whenever
the heap held exactly one element. -/
def qpop (cmp : α → α → K) (q : JsQueue α) : α × JsQueue α :=
  let value := qget q.elems 1
  let last := (q.elems.getLast?).getD default
  let l1 := q.elems.dropLast
  let l2 := jsSetList l1 1 last
  (value, ⟨cascadeDown cmp l2.length l2 1⟩)

/-- queue.js `Queue.prototype.isEmpty`: `elements.length <= 1`. -/
def qisEmpty (q : JsQueue α) : Bool := q.elems.length ≤ 1

end Queue

/-! ## The triangle mesh arena -/

/-- A mesh cell (a `Triangle` object): three forming-point ids in slot
order and three optional neighbor ids (`neighbor[i]` borders
`points[i]`, `points[(i+1) % 3]`). -/
structure Cell where
  p0 : Nat
  p1 : Nat
  p2 : Nat
  n0 : Option Nat
  n1 : Option Nat
  n2 : Option Nat
deriving DecidableEq

/-- Slot access `triangle.points[i]`. -/
def Cell.pt (c : Cell) : Fin 3 → Nat
  | 0 => c.p0
  | 1 => c.p1
  | 2 => c.p2

/-- Slot access `triangle.neighbors[i]`. -/
def Cell.nbr (c : Cell) : Fin 3 → Option Nat
  | 0 => c.n0
  | 1 => c.n1
  | 2 => c.n2

/-- `Triangle.setPoint` (the caches are modelled by recomputation). -/
def Cell.setPt (c : Cell) : Fin 3 → Nat → Cell
  | 0, p => { c with p0 := p }
  | 1, p => { c with p1 := p }
  | 2, p => { c with p2 := p }

/-- Store into `triangle.neighbors[i]`. -/
def Cell.setNbr (c : Cell) : Fin 3 → Option Nat → Cell
  | 0, n => { c with n0 := n }
  | 1, n => { c with n1 := n }
  | 2, n => { c with n2 := n }

/-- `triangle.points` as a list. -/
def Cell.ptList (c : Cell) : List Nat := [c.p0, c.p1, c.p2]

/-- `triangle.neighbors` as a list. -/
def Cell.nbrList (c : Cell) : List (Option Nat) := [c.n0, c.n1, c.n2]

/-- The cell arena: association list from cell id to cell. -/
def Arena : Type := List (Nat × Cell)

instance : DecidableEq Arena := by
  unfold Arena
  infer_instance

/-- Look a cell up by id. -/
def alookup (a : Arena) (i : Nat) : Option Cell := List.lookup i a

/-- Functionally update the cell stored at an existing id. -/
def aset (a : Arena) (i : Nat) (c : Cell) : Arena :=
  a.map fun jc => if jc.1 = i then (i, c) else jc

/-- Allocate a new cell (`new Triangle(...)`). -/
def ains (a : Arena) (i : Nat) (c : Cell) : Arena := (i, c) :: a

/-- Drop a cell that has become unreachable. -/
def aerase (a : Arena) (i : Nat) : Arena := a.filter fun jc => jc.1 ≠ i

/-- Coordinate store: point id to coordinates.  The JS code can never
miss (points are objects); the default is never read on guarded paths. -/
def coordOf {K : Type} [LinearOrderedField K] (m : List (Nat × Pt K)) (i : Nat) : Pt K :=
  (List.lookup i m).getD ⟨0, 0, 0⟩

/-- Visitation stamps: cell id to the id of the last search pass that
touched it (`triangle.search`); absent = never touched. -/
def Stamps : Type := List (Nat × Nat)

instance : DecidableEq Stamps := by
  unfold Stamps
  infer_instance

/-- `triangle.search` read. -/
def stampOf (st : Stamps) (i : Nat) : Option Nat := List.lookup i st

/-- `triangle.search = search` write. -/
def setStamp (st : Stamps) (i s : Nat) : Stamps := (i, s) :: st

/-- Junk cell for arena reads that the JS code (which holds real object
references) can never miss. -/
def junkCell : Cell := ⟨0, 0, 0, none, none, none⟩

/-- Read a cell the code holds a reference to. -/
def cellOf (a : Arena) (t : Nat) : Cell := (alookup a t).getD junkCell

/-! ## triangulation.js — point location -/

section Locate

variable {K : Type} [LinearOrderedField K]

/-- triangulation.js `minimalDistance`, translated with its dead store:
the loop computes `distance` and on `distance < minimal` assigns
`distance = minimal`, never updating `minimal`, so the result is always
the distance to `points[0]`. -/
def minimalDistance (m : List (Nat × Pt K)) (p : Pt K) (c : Cell) : K :=
  let minimal := calculateDistanceSquarePlane p (coordOf m (c.pt 0))
  let distance1 := calculateDistanceSquarePlane p (coordOf m (c.pt 1))
  let _ := if distance1 < minimal then minimal else distance1
  let distance2 := calculateDistanceSquarePlane p (coordOf m (c.pt 2))
  let _ := if distance2 < minimal then minimal else distance2
  minimal

/-- triangulation.js `compareTriangles`. -/
def compareTriangles (m : List (Nat × Pt K)) (p : Pt K) (a : Arena) (t1 t2 : Nat) : K :=
  minimalDistance m p (cellOf a t1) - minimalDistance m p (cellOf a t2)

/-- `triangle.containsPoint(point)` for the cell with id `t`. -/
def containsPointId (a : Arena) (m : List (Nat × Pt K)) (t : Nat) (x y : K) : Bool :=
  match alookup a t with
  | none => false
  | some c =>
    isPointInTriangle (coordOf m c.p0) (coordOf m c.p1) (coordOf m c.p2) x y

/-- Outcome of `findContainingTriangle`; `outOfFuel` marks a run of the
JS `while` loop that has not returned within the given fuel. -/
inductive SearchResult
  | found (t : Nat)
  | notFound
  | outOfFuel
deriving DecidableEq

/-- The neighbor-expansion inner `for` loop of `findContainingTriangle`:
each non-null, unstamped neighbor is stamped and inserted. -/
def fctExpand (cmp : Nat → Nat → K) (search : Nat) :
    List (Option Nat) → JsQueue Nat → Stamps → JsQueue Nat × Stamps
  | [], q, st => (q, st)
  | n? :: rest, q, st =>
    match n? with
    | none => fctExpand cmp search rest q st
    | some n =>
      if stampOf st n = some search then fctExpand cmp search rest q st
      else fctExpand cmp search rest (qinsert cmp q n) (setStamp st n search)

/-- The `while (!queue.isEmpty())` loop of `findContainingTriangle`. -/
def fctLoop (a : Arena) (m : List (Nat × Pt K)) (search : Nat) (x y : K) :
    Nat → JsQueue Nat → Stamps → SearchResult × Stamps
  | 0, _, st => (.outOfFuel, st)
  | fuel + 1, q, st =>
    if qisEmpty q then (.notFound, st)
    else
      let tq := qpop (compareTriangles m ⟨x, y, 0⟩ a) q
      if containsPointId a m tq.1 x y then (.found tq.1, st)
      else
        let qs := fctExpand (compareTriangles m ⟨x, y, 0⟩ a) search
          (cellOf a tq.1).nbrList tq.2 st
        fctLoop a m search x y fuel qs.1 qs.2

/-- triangulation.js `findContainingTriangle`.  The comparator closes
over the query point exactly as the JS closure does (only the planar
coordinates matter to every comparison). -/
def findContainingTriangle (fuel : Nat) (a : Arena) (m : List (Nat × Pt K))
    (search : Nat) (root? : Option Nat) (x y : K) (st : Stamps) :
    SearchResult × Stamps :=
  match root? with
  | none => (.notFound, st)
  | some root =>
    if stampOf st root = some search then (.notFound, st)
    else fctLoop a m search x y fuel
      (qinsert (compareTriangles m ⟨x, y, 0⟩ a) emptyQueue root) st

end Locate

/-! ## triangulation.js — split, flip and the repair cascade -/

/-- First index of `some oldN` in a cell's neighbor array
(`triangle.neighbors.indexOf(oldNeighbor)`). -/
def idxOfNbr (c : Cell) (oldN : Nat) : Option (Fin 3) :=
  if c.n0 = some oldN then some 0
  else if c.n1 = some oldN then some 1
  else if c.n2 = some oldN then some 2
  else none

/-- triangulation.js `replaceNeighbor`.  When `indexOf` misses, the JS
store `neighbors[-1] = x` leaves the three slots untouched. -/
def replaceNeighbor (a : Arena) (t? : Option Nat) (oldN newN : Nat) : Arena :=
  match t? with
  | none => a
  | some t =>
    match alookup a t with
    | none => a
    | some c =>
      match idxOfNbr c oldN with
      | none => a
      | some i => aset a t (c.setNbr i (some newN))

/-- triangulation.js `findNotContainedPoint` on two point triples; the
returned value is the first index of `c1.points` whose point (compared by
identity, i.e. by id) occurs nowhere in `c2.points`. -/
def findNotContainedPoint (c1 c2 : Cell) : Option (Fin 3) :=
  if ¬ (c1.p0 ∈ c2.ptList) then some 0
  else if ¬ (c1.p1 ∈ c2.ptList) then some 1
  else if ¬ (c1.p2 ∈ c2.ptList) then some 2
  else none

/-- triangulation.js `findRemainingIndex`: first index whose point equals
neither argument. -/
def findRemainingIndex (c : Cell) (q1 q2 : Nat) : Option (Fin 3) :=
  if c.p0 ≠ q1 ∧ c.p0 ≠ q2 then some 0
  else if c.p1 ≠ q1 ∧ c.p1 ≠ q2 then some 1
  else if c.p2 ≠ q1 ∧ c.p2 ≠ q2 then some 2
  else none

/-- Store into `neighbors[i]` of the cell with id `t`. -/
def asetNbrOf (a : Arena) (t : Nat) (i : Fin 3) (n : Option Nat) : Arena :=
  match alookup a t with
  | none => a
  | some c => aset a t (c.setNbr i n)

/-- triangulation.js `flip`, with all array reads and writes threaded
through the arena in source order.  The `none` fallthroughs correspond to
JS executions that index arrays with `null`; they are unreachable when
the two cells share exactly one edge, which is the only situation the
repair cascade calls `flip` in. -/
def flip (a : Arena) (t1 t2 : Nat) : Arena :=
  match alookup a t1, alookup a t2 with
  | some c1, some c2 =>
    match findNotContainedPoint c1 c2, findNotContainedPoint c2 c1 with
    | some index1, some index2 =>
      let swapIndex1 : Fin 3 := index1 + 1
      match findRemainingIndex c2 (c2.pt index2) (c1.pt swapIndex1) with
      | some swapIndex2 =>
        let c1a := c1.setPt swapIndex1 (c2.pt index2)
        let a1 := aset a t1 c1a
        let c2a := c2.setPt swapIndex2 (c1a.pt index1)
        let a2 := aset a1 t2 c2a
        let oldN1 := c1a.nbr
        let oldN2 := c2a.nbr
        let index11 : Fin 3 := swapIndex1 + 2
        let index12 : Fin 3 := swapIndex1
        let index21 : Fin 3 := swapIndex2 + 2
        let index22 : Fin 3 := swapIndex2
        let a3 := replaceNeighbor a2 ((cellOf a2 t1).nbr index11) t1 t2
        let a4 := asetNbrOf a3 t1 index11 (some t2)
        let a5 := asetNbrOf a4 t1 index12 (oldN2 index2)
        let a6 := replaceNeighbor a5 ((cellOf a5 t2).nbr index21) t2 t1
        let a7 := asetNbrOf a6 t2 index21 (some t1)
        asetNbrOf a7 t2 index22 (oldN1 index1)
      | none => a
    | _, _ => a
  | _, _ => a

section Repair

variable {K : Type} [LinearOrderedField K]

/-- The Delaunay-violation test of `investigateAndFixTriangle`: some
forming point of `neighbor` is strictly (with the `0.00001` slack) closer
to `triangle`'s circumcenter than `triangle`'s squared circumradius.  The
JS function flips at the first violating point and returns `true`; the
flip's effect does not depend on which point triggered it, so test and
flip are separated here. -/
def delaunayViolated (a : Arena) (m : List (Nat × Pt K)) (t n : Nat) : Bool :=
  let ct := cellOf a t
  let cn := cellOf a n
  (List.finRange 3).any fun i =>
    strictlyLessThanO
      (distToCircumcenterO (coordOf m ct.p0) (coordOf m ct.p1) (coordOf m ct.p2)
        (coordOf m (cn.pt i)))
      (radiusO (coordOf m ct.p0) (coordOf m ct.p1) (coordOf m ct.p2))

/-- triangulation.js `findAndFixViolatedTriangles` (with
`investigateAndFixTriangle` inlined): scan the neighbor slots; on a
violation flip the shared edge, recursively repair the neighbor, then
restart the scan at slot 0.  The self-recursion is not structural (the
mesh changes under it), hence the fuel. -/
def fixLoop (m : List (Nat × Pt K)) : Nat → Arena → Nat → Nat → Arena
  | 0, a, _, _ => a
  | fuel + 1, a, t, i =>
    if h : i < 3 then
      match (cellOf a t).nbr ⟨i, h⟩ with
      | none => fixLoop m fuel a t (i + 1)
      | some n =>
        if delaunayViolated a m t n then
          let a1 := flip a t n
          let a2 := fixLoop m fuel a1 n 0
          fixLoop m fuel a2 t 0
        else fixLoop m fuel a t (i + 1)
    else a

/-- Entry point of the repair cascade on one triangle. -/
def findAndFixViolatedTriangles (m : List (Nat × Pt K)) (fuel : Nat)
    (a : Arena) (t : Nat) : Arena :=
  fixLoop m fuel a t 0

/-- triangulation.js `splitTriangle`: replace the found triangle by three
children sharing the new point, rewire the three outer neighbors, run the
repair cascade on each child, and return the first child as the new
root.  The split triangle is dropped from the arena: after the three
`replaceNeighbor` calls nothing reachable references it (in JS the object
merely becomes garbage). -/
def splitTriangle (m : List (Nat × Pt K)) (fuel : Nat) (a : Arena)
    (tid : Nat) (p : Nat) (fresh : Nat) : Arena × Nat × Nat :=
  match alookup a tid with
  | none => (a, tid, fresh)
  | some c =>
    let id1 := fresh
    let id2 := fresh + 1
    let id3 := fresh + 2
    let t1 : Cell := ⟨c.p0, c.p1, p, c.n0, some id2, some id3⟩
    let t2 : Cell := ⟨p, c.p1, c.p2, some id1, c.n1, some id3⟩
    let t3 : Cell := ⟨c.p0, p, c.p2, some id1, some id2, c.n2⟩
    let a0 := aerase a tid
    let a1 := ains (ains (ains a0 id1 t1) id2 t2) id3 t3
    let a2 := replaceNeighbor a1 c.n0 tid id1
    let a3 := replaceNeighbor a2 c.n1 tid id2
    let a4 := replaceNeighbor a3 c.n2 tid id3
    let a5 := findAndFixViolatedTriangles m fuel a4 id1
    let a6 := findAndFixViolatedTriangles m fuel a5 id2
    let a7 := findAndFixViolatedTriangles m fuel a6 id3
    (a7, id1, fresh + 3)

end Repair

/-! ## The engine state and its public operations -/

/-- The `Delaunay` engine state.  `b1`, `b2`, `b3` are the ids of the
three synthetic bounding points (`this.point1..3`); `search` is the
monotonically increasing search-pass counter. -/
structure DState (K : Type) where
  arena : Arena
  coords : List (Nat × Pt K)
  stamps : Stamps
  root : Option Nat
  search : Nat
  nextCellId : Nat
  nextPtId : Nat
  b1 : Nat
  b2 : Nat
  b3 : Nat
deriving DecidableEq

section Engine

variable {K : Type} [LinearOrderedField K]

/-- The `Delaunay` constructor.  `sqrtDiag` stands for the value of
`Math.sqrt(rectangle_a² + rectangle_b²)` and `sqrt3` for `Math.sqrt(3.0)`;
theorems that depend on their defining equations take them as
hypotheses.  Point ids 0, 1, 2 are the bounding vertices; cell id 0 is
the root triangle. -/
def delaunayInit (min_x max_x min_y max_y sqrtDiag sqrt3 : K) : DState K :=
  let slack : K := 3 / 2
  let center_x := (min_x + max_x) / 2
  let center_y := (min_y + max_y) / 2
  let radius := sqrtDiag / 2
  let side := 6 * radius * slack / sqrt3
  let height := side * sqrt3 / 2
  let p1 : Pt K := ⟨center_x - side / 2, center_y - radius, 0⟩
  let p2 : Pt K := ⟨center_x, center_y + height, 0⟩
  let p3 : Pt K := ⟨center_x + side / 2, center_y - radius, 0⟩
  { arena := [(0, ⟨0, 1, 2, none, none, none⟩)]
    coords := [(0, p1), (1, p2), (2, p3)]
    stamps := []
    root := some 0
    search := 0
    nextCellId := 1
    nextPtId := 3
    b1 := 0
    b2 := 1
    b3 := 2 }

/-- One iteration of `Delaunay.prototype.insert`'s loop: allocate the
point object, locate with a fresh pass id, and on success split (the
split runs the repair cascade) and move the root.  On a failed location
the JS only logs; `outOfFuel` can not occur in JS (the loop would simply
still be running). -/
def insertOne (fuel : Nat) (s : DState K) (c : Pt K) : DState K :=
  let pid := s.nextPtId
  let coords := (pid, c) :: s.coords
  let sid := s.search
  let r := findContainingTriangle fuel s.arena coords sid s.root c.x c.y s.stamps
  let s1 : DState K :=
    { s with coords := coords, nextPtId := pid + 1, search := sid + 1, stamps := r.2 }
  match r.1 with
  | .found t =>
    let sp := splitTriangle coords fuel s1.arena t pid s1.nextCellId
    { s1 with arena := sp.1, root := some sp.2.1, nextCellId := sp.2.2 }
  | .notFound => s1
  | .outOfFuel => s1

/-- `Delaunay.prototype.insert` over a point array. -/
def dinsert (fuel : Nat) (s : DState K) (ps : List (Pt K)) : DState K :=
  ps.foldl (insertOne fuel) s

end Engine

/-! ## triangulation.js — the harvest (`getTriangles`) -/

/-- Does the cell touch one of the three bounding points (by id, the
identity comparison of `indexOf`)? -/
def boundingTouched (b1 b2 b3 : Nat) (c : Cell) : Bool :=
  c.ptList.contains b1 || c.ptList.contains b2 || c.ptList.contains b3

/-- triangulation.js `addTriangle`: stamp an unvisited triangle and push
it unless it touches a bounding vertex; the boolean reports whether it
was pushed. -/
def addTriangle (b1 b2 b3 : Nat) (a : Arena) (search : Nat)
    (tris : List Nat) (st : Stamps) (t? : Option Nat) :
    List Nat × Stamps × Bool :=
  match t? with
  | none => (tris, st, false)
  | some t =>
    if stampOf st t = some search then (tris, st, false)
    else
      let st1 := setStamp st t search
      match alookup a t with
      | none => (tris, st1, false)
      | some c =>
        if boundingTouched b1 b2 b3 c then (tris, st1, false)
        else (tris ++ [t], st1, true)

mutual

/-- triangulation.js `addRoot`: depth-first search for a first valid
(non-bounding) triangle.  The JS recursion terminates because every
recursive step stamps a previously unstamped cell; the fuel (consumed once
per call so that the mutual recursion is structural) makes that explicit,
and every theorem about the harvest quantifies over it. -/
def addRoot (b1 b2 b3 : Nat) (a : Arena) (search : Nat) :
    Nat → Option Nat → List Nat → Stamps → Bool × List Nat × Stamps
  | 0, _, tris, st => (false, tris, st)
  | fuel + 1, root?, tris, st =>
    let r := addTriangle b1 b2 b3 a search tris st root?
    if r.2.2 then (true, r.1, r.2.1)
    else
      match root? with
      | none => (false, r.1, r.2.1)
      | some rt =>
        match alookup a rt with
        | none => (false, r.1, r.2.1)
        | some c => addRootLoop b1 b2 b3 a search fuel c.nbrList r.1 r.2.1

/-- The neighbor `for` loop inside `addRoot`, with its `&&` early
exits. -/
def addRootLoop (b1 b2 b3 : Nat) (a : Arena) (search : Nat) :
    Nat → List (Option Nat) → List Nat → Stamps → Bool × List Nat × Stamps
  | 0, _, tris, st => (false, tris, st)
  | fuel + 1, [], tris, st => (false, tris, st)
  | fuel + 1, n? :: rest, tris, st =>
    match n? with
    | none => addRootLoop b1 b2 b3 a search fuel rest tris st
    | some n =>
      if stampOf st n = some search then
        addRootLoop b1 b2 b3 a search fuel rest tris st
      else
        let r := addRoot b1 b2 b3 a search fuel (some n) tris st
        if r.1 then r
        else addRootLoop b1 b2 b3 a search fuel rest r.2.1 r.2.2

end

/-- triangulation.js `addNeighbors`: `addTriangle` on each neighbor
slot. -/
def addNeighbors (b1 b2 b3 : Nat) (a : Arena) (search : Nat)
    (tris : List Nat) (st : Stamps) (t : Nat) : List Nat × Stamps :=
  let c := cellOf a t
  let r0 := addTriangle b1 b2 b3 a search tris st c.n0
  let r1 := addTriangle b1 b2 b3 a search r0.1 r0.2.1 c.n1
  let r2 := addTriangle b1 b2 b3 a search r1.1 r1.2.1 c.n2
  (r2.1, r2.2.1)

/-- The iterative expansion loop of `collectTriangles`
(`for (i = 0; i < triangles.length; i++)` over the growing array).  The
JS loop terminates because every push stamps a previously unstamped
cell; the fuel makes that explicit. -/
def expandLoop (b1 b2 b3 : Nat) (a : Arena) (search : Nat) :
    Nat → Nat → List Nat → Stamps → List Nat × Stamps
  | 0, _, tris, st => (tris, st)
  | fuel + 1, i, tris, st =>
    if i < tris.length then
      let r := addNeighbors b1 b2 b3 a search tris st (tris.getD i 0)
      expandLoop b1 b2 b3 a search fuel (i + 1) r.1 r.2
    else (tris, st)

/-- triangulation.js `collectTriangles`. -/
def collectTriangles (b1 b2 b3 : Nat) (a : Arena) (fuel : Nat)
    (search : Nat) (root? : Option Nat) (st : Stamps) : List Nat × Stamps :=
  let r := addRoot b1 b2 b3 a search fuel root? [] st
  expandLoop b1 b2 b3 a search fuel 0 r.2.1 r.2.2

/-- `Delaunay.prototype.getTriangles`: harvest with a fresh pass id and
bump the pass counter. -/
def getTriangles {K : Type} [LinearOrderedField K] (fuel : Nat) (s : DState K) :
    List Nat × DState K :=
  let r := collectTriangles s.b1 s.b2 s.b3 s.arena fuel s.search s.root s.stamps
  (r.1, { s with stamps := r.2, search := s.search + 1 })

/-! ## Concrete example inputs used by the claim analyses -/

/-- A lone triangle cell on point ids 0, 1, 2 with no neighbors. -/
def exTriCell : Cell := ⟨0, 1, 2, none, none, none⟩

/-- A one-cell mesh: the triangle lives at cell id 5. -/
def exArena : Arena := [(5, exTriCell)]

/-- Coordinates for `exArena`: the unit right triangle. -/
def exCoords : List (Nat × Pt ℚ) := [(0, ⟨0, 0, 0⟩), (1, ⟨1, 0, 0⟩), (2, ⟨0, 1, 0⟩)]

/-- Coordinates exposing the `minimalDistance` dead store: vertex 0 is far
from the origin, vertex 1 is the origin itself. -/
def mdCoords : List (Nat × Pt ℚ) := [(0, ⟨10, 0, 0⟩), (1, ⟨0, 0, 0⟩), (2, ⟨3, 4, 0⟩)]

/-- The JS comparator on plain numbers, `function(a, b) { return a - b }`. -/
def qcmp : ℚ → ℚ → ℚ := fun a b => a - b

/-- Three collinear points (on the diagonal y = x). -/
def colA : Pt ℚ := ⟨0, 0, 0⟩

/-- Second collinear point. -/
def colB : Pt ℚ := ⟨1, 1, 0⟩

/-- Third collinear point. -/
def colC : Pt ℚ := ⟨2, 2, 0⟩

/-! ## Reachable engine states and stamp bookkeeping -/

/-- Every stamp value recorded is below `n`. -/
def StampsBelow (st : Stamps) (n : Nat) : Prop :=
  ∀ c v, stampOf st c = some v → v < n

/-- Two stamp states agree on which cells carry the current pass id. -/
def StampRel (st1 : Stamps) (s1 : Nat) (st2 : Stamps) (s2 : Nat) : Prop :=
  ∀ c, stampOf st1 c = some s1 ↔ stampOf st2 c = some s2

/-- The engine states reachable through the public operations:
construction (with arbitrary values for the two `Math.sqrt` results),
`insert`, and `getTriangles` (which mutates the stamps and the pass
counter). -/
inductive Reachable {K : Type} [LinearOrderedField K] : DState K → Prop where
  | init : ∀ mnx mxx mny mxy sd s3 : K,
      Reachable (delaunayInit mnx mxx mny mxy sd s3)
  | step_insert : ∀ {s : DState K} (fuel : Nat) (ps : List (Pt K)),
      Reachable s → Reachable (dinsert fuel s ps)
  | step_collect : ∀ {s : DState K} (fuel : Nat),
      Reachable s → Reachable ((getTriangles fuel s).2)

/-! ## The field ℚ(√3)

The constructor's coordinates involve `Math.sqrt 3`; to execute engine
runs exactly, the pipeline is instantiated at the real quadratic field
ℚ(√3) below, whose order is computable. -/

/-- The real quadratic field ℚ(√3), represented as pairs `a + b·√3` with
exact rational components.  It carries a computable `LinearOrderedField`
instance (sign tests by comparing `a²` against `3b²`), which lets the
engine's constructor — whose coordinates involve `Math.sqrt(3)` — be run
exactly. -/
@[ext]
structure Q3 where
  a : ℚ
  b : ℚ
deriving DecidableEq

namespace Q3

/-- Interpretation into the reals (proof-side only). -/
noncomputable def toReal (x : Q3) : ℝ := x.a + x.b * Real.sqrt 3

theorem sqrt3_irrational : Irrational (Real.sqrt 3) :=
  (Nat.prime_three).irrational_sqrt

theorem toReal_injective : Function.Injective toReal := by
  intro x y h
  unfold toReal at h
  by_cases hb : x.b = y.b
  · refine Q3.ext ?_ hb
    have hbR : (x.b : ℝ) = y.b := by exact_mod_cast hb
    have ha : (x.a : ℝ) = y.a := by rw [hbR] at h; linarith
    exact_mod_cast ha
  · exfalso
    have hbR : (y.b : ℝ) ≠ (x.b : ℝ) := fun hc => hb (by exact_mod_cast hc.symm)
    have hs : Real.sqrt 3 = (((x.a - y.a) / (y.b - x.b) : ℚ) : ℝ) := by
      push_cast
      rw [eq_div_iff (sub_ne_zero.2 hbR)]
      linarith
    exact sqrt3_irrational ⟨_, hs.symm⟩

instance : Zero Q3 := ⟨⟨0, 0⟩⟩
instance : One Q3 := ⟨⟨1, 0⟩⟩
instance : Add Q3 := ⟨fun x y => ⟨x.a + y.a, x.b + y.b⟩⟩
instance : Neg Q3 := ⟨fun x => ⟨-x.a, -x.b⟩⟩
instance : Sub Q3 := ⟨fun x y => ⟨x.a - y.a, x.b - y.b⟩⟩
instance : Mul Q3 := ⟨fun x y => ⟨x.a * y.a + 3 * x.b * y.b, x.a * y.b + x.b * y.a⟩⟩

/-- Field norm denominator: `a² − 3b²`, nonzero away from zero because √3
is irrational. -/
def det (x : Q3) : ℚ := x.a ^ 2 - 3 * x.b ^ 2

instance : Inv Q3 := ⟨fun x => ⟨x.a / det x, -x.b / det x⟩⟩
instance : Div Q3 := ⟨fun x y => x * y⁻¹⟩

@[simp] theorem zero_a : (0 : Q3).a = 0 := rfl
@[simp] theorem zero_b : (0 : Q3).b = 0 := rfl
@[simp] theorem one_a : (1 : Q3).a = 1 := rfl
@[simp] theorem one_b : (1 : Q3).b = 0 := rfl
@[simp] theorem add_a (x y : Q3) : (x + y).a = x.a + y.a := rfl
@[simp] theorem add_b (x y : Q3) : (x + y).b = x.b + y.b := rfl
@[simp] theorem neg_a (x : Q3) : (-x).a = -x.a := rfl
@[simp] theorem neg_b (x : Q3) : (-x).b = -x.b := rfl
@[simp] theorem sub_a (x y : Q3) : (x - y).a = x.a - y.a := rfl
@[simp] theorem sub_b (x y : Q3) : (x - y).b = x.b - y.b := rfl
@[simp] theorem mul_a (x y : Q3) : (x * y).a = x.a * y.a + 3 * x.b * y.b := rfl
@[simp] theorem mul_b (x y : Q3) : (x * y).b = x.a * y.b + x.b * y.a := rfl
@[simp] theorem inv_a (x : Q3) : (x⁻¹).a = x.a / det x := rfl
@[simp] theorem inv_b (x : Q3) : (x⁻¹).b = -x.b / det x := rfl

theorem sqrt3_sq : Real.sqrt 3 * Real.sqrt 3 = 3 :=
  Real.mul_self_sqrt (by norm_num)

@[simp] theorem toReal_zero : toReal 0 = 0 := by simp [toReal]
@[simp] theorem toReal_one : toReal 1 = 1 := by simp [toReal]
@[simp] theorem toReal_add (x y : Q3) : toReal (x + y) = toReal x + toReal y := by
  simp [toReal]; push_cast; ring
@[simp] theorem toReal_neg (x : Q3) : toReal (-x) = -toReal x := by
  simp [toReal]; push_cast; ring
@[simp] theorem toReal_sub (x y : Q3) : toReal (x - y) = toReal x - toReal y := by
  simp [toReal]; push_cast; ring
@[simp] theorem toReal_mul (x y : Q3) : toReal (x * y) = toReal x * toReal y := by
  simp only [toReal, mul_a, mul_b]
  push_cast
  have h := sqrt3_sq
  linear_combination (-(x.b : ℝ) * y.b) * h

/-- Computable nonnegativity test for `a + b√3`. -/
def nonneg (x : Q3) : Bool :=
  if 0 ≤ x.a then
    if 0 ≤ x.b then true else decide (3 * x.b ^ 2 ≤ x.a ^ 2)
  else
    if 0 ≤ x.b then decide (x.a ^ 2 ≤ 3 * x.b ^ 2) else false

theorem nonneg_iff (x : Q3) : nonneg x = true ↔ 0 ≤ toReal x := by
  have hs0 : (0 : ℝ) ≤ Real.sqrt 3 := Real.sqrt_nonneg 3
  have hs : Real.sqrt 3 * Real.sqrt 3 = 3 := sqrt3_sq
  unfold nonneg toReal
  rcases le_or_lt 0 x.a with ha | ha <;> rcases le_or_lt 0 x.b with hb | hb
  · have haR : (0 : ℝ) ≤ (x.a : ℝ) := by exact_mod_cast ha
    have hbR : (0 : ℝ) ≤ (x.b : ℝ) := by exact_mod_cast hb
    simp only [ha, hb, if_pos]
    simp only [true_iff]
    positivity
  · have haR : (0 : ℝ) ≤ (x.a : ℝ) := by exact_mod_cast ha
    have hbR : (x.b : ℝ) < 0 := by exact_mod_cast hb
    rw [if_pos ha, if_neg (not_le.2 hb)]
    rw [decide_eq_true_eq]
    constructor
    · intro h
      have hR : 3 * (x.b : ℝ) ^ 2 ≤ (x.a : ℝ) ^ 2 := by exact_mod_cast h
      nlinarith [hR, hs, hs0, haR, hbR, mul_nonneg haR (neg_nonneg.2 (le_of_lt hbR))]
    · intro h
      have hR : 3 * (x.b : ℝ) ^ 2 ≤ (x.a : ℝ) ^ 2 := by
        nlinarith [h, hs, hs0, haR, hbR,
          mul_nonneg h (sub_nonneg.2 (by nlinarith [hs0, hbR] :
            (x.a : ℝ) + x.b * Real.sqrt 3 ≤ x.a - x.b * Real.sqrt 3))]
      exact_mod_cast hR
  · have haR : (x.a : ℝ) < 0 := by exact_mod_cast ha
    have hbR : (0 : ℝ) ≤ (x.b : ℝ) := by exact_mod_cast hb
    rw [if_neg (not_le.2 ha), if_pos hb]
    rw [decide_eq_true_eq]
    constructor
    · intro h
      have hR : (x.a : ℝ) ^ 2 ≤ 3 * (x.b : ℝ) ^ 2 := by exact_mod_cast h
      nlinarith [hR, hs, hs0, haR, hbR, mul_nonneg hbR hs0]
    · intro h
      have hR : (x.a : ℝ) ^ 2 ≤ 3 * (x.b : ℝ) ^ 2 := by
        nlinarith [h, hs, hs0, haR, hbR,
          mul_nonneg h (sub_nonneg.2 (by nlinarith [hs0, haR, hbR] :
            (x.a : ℝ) + x.b * Real.sqrt 3 ≤ x.b * Real.sqrt 3 - x.a))]
      exact_mod_cast hR
  · have haR : (x.a : ℝ) < 0 := by exact_mod_cast ha
    have hbR : (x.b : ℝ) < 0 := by exact_mod_cast hb
    rw [if_neg (not_le.2 ha), if_neg (not_le.2 hb)]
    simp only [Bool.false_eq_true, false_iff, not_le]
    nlinarith [hs0, haR, hbR, mul_nonneg (neg_nonneg.2 (le_of_lt hbR)) hs0]

instance : NatCast Q3 := ⟨fun n => ⟨n, 0⟩⟩

instance : IntCast Q3 := ⟨fun z => ⟨z, 0⟩⟩

@[simp] theorem natCast_a (n : ℕ) : ((n : Q3)).a = n := rfl

@[simp] theorem natCast_b (n : ℕ) : ((n : Q3)).b = 0 := rfl

@[simp] theorem intCast_a (z : ℤ) : ((z : Q3)).a = z := rfl

@[simp] theorem intCast_b (z : ℤ) : ((z : Q3)).b = 0 := rfl

instance : LE Q3 := ⟨fun x y => nonneg (y - x) = true⟩

instance : LT Q3 := ⟨fun x y => x ≤ y ∧ ¬ y ≤ x⟩

theorem le_iff_toReal (x y : Q3) : x ≤ y ↔ toReal x ≤ toReal y := by
  show nonneg (y - x) = true ↔ _
  rw [nonneg_iff, toReal_sub, sub_nonneg]

theorem lt_iff_toReal (x y : Q3) : x < y ↔ toReal x < toReal y := by
  show (x ≤ y ∧ ¬ y ≤ x) ↔ _
  rw [le_iff_toReal, le_iff_toReal, lt_iff_le_not_le]

instance instLinearOrder : LinearOrder Q3 where
  le := (· ≤ ·)
  lt := (· < ·)
  le_refl x := (le_iff_toReal x x).2 le_rfl
  le_trans x y z hxy hyz :=
    (le_iff_toReal x z).2 (le_trans ((le_iff_toReal x y).1 hxy) ((le_iff_toReal y z).1 hyz))
  le_antisymm x y hxy hyx :=
    toReal_injective (le_antisymm ((le_iff_toReal x y).1 hxy) ((le_iff_toReal y x).1 hyx))
  le_total x y := by
    rcases le_total (toReal x) (toReal y) with h | h
    · exact Or.inl ((le_iff_toReal x y).2 h)
    · exact Or.inr ((le_iff_toReal y x).2 h)
  lt_iff_le_not_le _ _ := Iff.rfl
  decidableLE x y := inferInstanceAs (Decidable (nonneg (y - x) = true))
  decidableEq := inferInstance

instance instCommRing : CommRing Q3 where
  add := (· + ·)
  add_assoc x y z := by ext <;> simp <;> ring
  zero := 0
  zero_add x := by ext <;> simp
  add_zero x := by ext <;> simp
  add_comm x y := by ext <;> simp <;> ring
  mul := (· * ·)
  left_distrib x y z := by ext <;> simp <;> ring
  right_distrib x y z := by ext <;> simp <;> ring
  zero_mul x := by ext <;> simp
  mul_zero x := by ext <;> simp
  mul_assoc x y z := by ext <;> simp <;> ring
  one := 1
  one_mul x := by ext <;> simp
  mul_one x := by ext <;> simp
  neg := Neg.neg
  sub := Sub.sub
  sub_eq_add_neg x y := by ext <;> simp <;> ring
  neg_add_cancel x := by ext <;> simp
  mul_comm x y := by ext <;> simp <;> ring
  nsmul := nsmulRec
  zsmul := zsmulRec
  natCast := Nat.cast
  natCast_zero := by ext <;> simp
  natCast_succ n := by ext <;> simp
  intCast := Int.cast
  intCast_ofNat n := by ext <;> simp
  intCast_negSucc n := by ext <;> simp [Int.cast_negSucc]

theorem rat_sq_ne_three (q : ℚ) : q ^ 2 ≠ 3 := by
  intro h
  have h3 : Real.sqrt 3 = |(q : ℝ)| := by
    rw [show ((3 : ℝ)) = ((q : ℝ)) ^ 2 by exact_mod_cast h.symm, Real.sqrt_sq_eq_abs]
  have hi : Irrational (Real.sqrt 3) := sqrt3_irrational
  rw [h3] at hi
  exact hi ⟨|q|, by push_cast; rfl⟩

theorem det_ne_zero {x : Q3} (hx : ¬(x.a = 0 ∧ x.b = 0)) : det x ≠ 0 := by
  unfold det
  intro h
  by_cases hb : x.b = 0
  · refine hx ⟨?_, hb⟩
    have h2 := h
    rw [hb] at h2
    nlinarith [sq_nonneg x.a]
  · exact rat_sq_ne_three (x.a / x.b) (by field_simp; linarith)

instance instField : Field Q3 where
  __ := instCommRing
  inv := Inv.inv
  div := Div.div
  div_eq_mul_inv x y := rfl
  exists_pair_ne := ⟨0, 1, by with_unfolding_all decide⟩
  mul_inv_cancel x hx := by
    have hne : ¬(x.a = 0 ∧ x.b = 0) := by
      intro hab
      apply hx
      have hx0 : x = ⟨0, 0⟩ := Q3.ext hab.1 hab.2
      rw [hx0]
      rfl
    have hd : det x ≠ 0 := det_ne_zero hne
    have h1 : x.a * (x.a / det x) + 3 * x.b * (-x.b / det x) = 1 := by
      field_simp
      unfold det
      ring
    have h2 : x.a * (-x.b / det x) + x.b * (x.a / det x) = 0 := by
      field_simp
      ring
    exact Q3.ext h1 h2
  inv_zero := by
    have h1 : ((0 : Q3)⁻¹).a = 0 := by
      show (0 : ℚ) / det ⟨0, 0⟩ = 0
      norm_num
    have h2 : ((0 : Q3)⁻¹).b = 0 := by
      show -(0 : ℚ) / det ⟨0, 0⟩ = 0
      norm_num
    exact Q3.ext h1 h2
  nnqsmul := _
  qsmul := _

instance instLinearOrderedField : LinearOrderedField Q3 where
  __ := instField
  __ := instLinearOrder
  add_le_add_left x y h c := by
    have h1 := (le_iff_toReal x y).1 h
    exact (le_iff_toReal (c + x) (c + y)).2
      (by rw [toReal_add, toReal_add]; linarith)
  zero_le_one :=
    (le_iff_toReal 0 1).2 (by rw [toReal_zero, toReal_one]; norm_num)
  mul_pos x y hx hy := by
    have hx1 := (lt_iff_toReal 0 x).1 hx
    have hy1 := (lt_iff_toReal 0 y).1 hy
    rw [toReal_zero] at hx1 hy1
    exact (lt_iff_toReal 0 (x * y)).2
      (by rw [toReal_zero, toReal_mul]; exact mul_pos hx1 hy1)

end Q3

/-- Exactly √3 as an element of ℚ(√3). -/
def sqrt3Q3 : Q3 := ⟨0, 1⟩

/-- Engine constructed on the box (0, 3) × (0, 4): the diagonal is 3-4-5,
so the constructor's `Math.sqrt(a² + b²)` is exactly 5 and every
coordinate lies in ℚ(√3). -/
def c8s0 : DState Q3 := delaunayInit 0 3 0 4 5 sqrt3Q3

/-- The engine after inserting the point (1, 1, 0). -/
def c8s1 : DState Q3 := insertOne 60 c8s0 ⟨1, 1, 0⟩

/-- The engine after additionally inserting (1, 1, 7), whose planar
projection coincides with the existing vertex (1, 1, 0). -/
def c8s2 : DState Q3 := insertOne 60 c8s1 ⟨1, 1, 7⟩

/-- Engine for the C1 analysis, on the same (0, 3) × (0, 4) box. -/
def c1s0 : DState Q3 := delaunayInit 0 3 0 4 5 sqrt3Q3

/-- After inserting (11/8, 1/4): point id 3, cells 1, 2, 3. -/
def c1s1 : DState Q3 := insertOne 200 c1s0 ⟨11 / 8, 1 / 4, 0⟩

/-- After additionally inserting (281/200, 1/4): point id 4. -/
def c1s2 : DState Q3 := insertOne 200 c1s1 ⟨281 / 200, 1 / 4, 0⟩

/-- After additionally inserting (5/7, 2/7): point id 5.  The insertion
settles (the repair cascade runs to completion with one flip), yet point 5
remains strictly inside — beyond the 0.00001 slack — the circumcircle of
the surviving cell 4, whose vertices are point 3, the apex bounding
vertex 1 and point 4. -/
def c1s3 : DState Q3 := insertOne 200 c1s2 ⟨5 / 7, 2 / 7, 0⟩

/-! ## Theorems -/

/-- Auxiliary for C3: on the one-cell mesh whose triangle does not contain
the query point (5, 5), one iteration of the search loop returns to exactly
the same queue and stamp state: `pop` on the one-element heap re-appends the
element (`elements[1] = elements.pop()`), the containment test fails, and
there are no neighbors to expand.  The loop therefore never terminates. -/
theorem fctLoop_stuck (fuel : Nat) :
    fctLoop exArena exCoords 0 (5 : ℚ) 5 fuel ⟨[0, 5]⟩ [] =
      (SearchResult.outOfFuel, []) := by
  induction fuel with
  | zero => rfl
  | succ n ih =>
    exact (show fctLoop exArena exCoords 0 (5 : ℚ) 5 (n + 1) ⟨[0, 5]⟩ [] =
      fctLoop exArena exCoords 0 (5 : ℚ) 5 n ⟨[0, 5]⟩ [] by
        with_unfolding_all rfl).trans ih

/-- C3: the claim states that the point-location search always terminates,
returning null when no reachable cell contains the point.  It is false: on a
mesh whose only cell does not contain the query point the search never
returns, for any amount of fuel, because `Queue.prototype.pop` fails to
remove the last heap element (`elements[1] = elements.pop()` re-appends it),
so the queue never empties.  The conjuncts also record that no cell of this
mesh contains the point, which is the situation the claim says must yield
"not found". -/
theorem findContainingTriangle_diverges_without_containing_cell (fuel : Nat) :
    containsPointId exArena exCoords 5 (5 : ℚ) 5 = false ∧
    (findContainingTriangle fuel exArena exCoords 0 (some 5) (5 : ℚ) 5 []).1 =
      SearchResult.outOfFuel := by
  refine ⟨by with_unfolding_all rfl, ?_⟩
  cases fuel with
  | zero => rfl
  | succ n =>
    exact (show (findContainingTriangle (n + 1) exArena exCoords 0 (some 5)
        (5 : ℚ) 5 []).1 =
      (fctLoop exArena exCoords 0 (5 : ℚ) 5 (n + 1) ⟨[0, 5]⟩ []).1 by
        with_unfolding_all rfl).trans
      (congrArg Prod.fst (fctLoop_stuck (n + 1)))

/-- C4: the claim states that `popMin` removes a minimal element, so the
count drops by one, and in particular inserting a single element and popping
leaves the queue empty.  It is false: popping the single element returns it
but leaves the queue in exactly the state it was in before the pop
(`elements[1] = elements.pop()` re-appends the JS-popped last element), so
`isEmpty` stays false and the element count does not change. -/
theorem queue_pop_single_element_not_removed :
    (qpop qcmp (qinsert qcmp emptyQueue (42 : ℚ))).1 = 42 ∧
    (qpop qcmp (qinsert qcmp emptyQueue (42 : ℚ))).2 =
      qinsert qcmp emptyQueue (42 : ℚ) ∧
    qisEmpty (qpop qcmp (qinsert qcmp emptyQueue (42 : ℚ))).2 = false := by
  with_unfolding_all exact ⟨rfl, rfl, rfl⟩

/-- C5: the claim states that the locator heuristic `minimalDistance` equals
the minimum of the squared planar distances to the three vertices.  It is
false: the loop's `if (distance < minimal) { distance = minimal; }` is a
dead store (it assigns to `distance`, not `minimal`), so the function
returns the distance to `points[0]`.  Here the query point sits on vertex 1
(true minimum 0) yet the heuristic yields 100. -/
theorem minimalDistance_returns_first_vertex_distance :
    minimalDistance mdCoords ⟨0, 0, 0⟩ exTriCell = 100 ∧
    min (min (calculateDistanceSquarePlane (⟨0, 0, 0⟩ : Pt ℚ) (coordOf mdCoords 0))
        (calculateDistanceSquarePlane (⟨0, 0, 0⟩ : Pt ℚ) (coordOf mdCoords 1)))
      (calculateDistanceSquarePlane (⟨0, 0, 0⟩ : Pt ℚ) (coordOf mdCoords 2)) = 0 ∧
    (100 : ℚ) ≠ 0 := by
  refine ⟨by with_unfolding_all rfl, by with_unfolding_all rfl, by norm_num⟩

/-- C7 (counterexample): the claim states that a zero denominator from
collinear vertices is detected before dividing and rejected with an error.
It is false: on the concrete collinear triple the denominators of both the
circumcenter and the containment system are zero, no detection exists in the
code, and the undefined (`NaN`) results flow into the later comparisons,
which silently evaluate to false. -/
theorem degenerate_geometry_not_rejected :
    circumDenom colA colB colC = 0 ∧
    (calculateCircumcentre colA colB colC).x = none ∧
    (calculateCircumcentre colA colB colC).y = none ∧
    distToCircumcenterO colA colB colC ⟨1 / 2, 1 / 2, 0⟩ = none ∧
    strictlyLessThanO (distToCircumcenterO colA colB colC ⟨1 / 2, 1 / 2, 0⟩)
      (radiusO colA colB colC) = false ∧
    containDenom colA colB colC = 0 ∧
    isPointInTriangle colA colB colC (1 / 2 : ℚ) (1 / 2) = false := by
  with_unfolding_all
    exact ⟨rfl, rfl, rfl, rfl, rfl, rfl, rfl⟩

/-- C7 (amended): whenever the denominator of the circumcenter or of the
containment linear system is zero, the code divides anyway and the undefined
result (modelled `none`, the JS `NaN`/`Infinity`) propagates: the
circumcenter is undefined, the circumcircle comparison evaluates to false,
and the containment test evaluates to false — no error is ever raised
(indeed the computations have no error outcome at all). -/
theorem degenerate_denominator_propagates {K : Type} [LinearOrderedField K]
    (p1 p2 p3 q : Pt K) (x y : K)
    (h : circumDenom p1 p2 p3 = 0) (h2 : containDenom p1 p2 p3 = 0) :
    (calculateCircumcentre p1 p2 p3).x = none ∧
    (calculateCircumcentre p1 p2 p3).y = none ∧
    distToCircumcenterO p1 p2 p3 q = none ∧
    strictlyLessThanO (distToCircumcenterO p1 p2 p3 q) (radiusO p1 p2 p3) = false ∧
    isPointInTriangle p1 p2 p3 x y = false := by
  have hx : (calculateCircumcentre p1 p2 p3).x = none := by
    simp [calculateCircumcentre, nadiv, h]
  have hy : (calculateCircumcentre p1 p2 p3).y = none := by
    simp [calculateCircumcentre, nadiv, h]
  have hd : distToCircumcenterO p1 p2 p3 q = none := by
    unfold distToCircumcenterO
    rw [hx]
  refine ⟨hx, hy, hd, ?_, ?_⟩
  · rw [hd]
    rfl
  · unfold isPointInTriangle
    simp [nadiv, h2]

/-- Auxiliary for C10: the collected-triangle predicate "does not touch a
bounding vertex". -/
def notBounding (b1 b2 b3 : Nat) (a : Arena) : Nat → Bool :=
  fun t => !(boundingTouched b1 b2 b3 (cellOf a t))

/-- Auxiliary for C10: `addTriangle` only ever appends a cell that does not
touch a bounding vertex. -/
theorem addTriangle_all_notBounding (b1 b2 b3 : Nat) (a : Arena) (search : Nat)
    (tris : List Nat) (st : Stamps) (t? : Option Nat)
    (h : tris.all (notBounding b1 b2 b3 a) = true) :
    ((addTriangle b1 b2 b3 a search tris st t?).1.all
      (notBounding b1 b2 b3 a)) = true := by
  unfold addTriangle
  cases t? with
  | none => exact h
  | some t =>
    by_cases hs : stampOf st t = some search
    · simpa [hs] using h
    · simp only [hs, if_false, reduceIte]
      cases hl : alookup a t with
      | none => simpa using h
      | some c =>
        by_cases hb : boundingTouched b1 b2 b3 c = true
        · simpa [hb] using h
        · simp only [hb, Bool.false_eq_true, if_false, reduceIte, List.all_append,
            List.all_cons, List.all_nil, Bool.and_true, h, Bool.true_and]
          have hl2 : List.lookup t a = some c := hl
          simp only [notBounding, cellOf, alookup, hl2, Option.getD_some]
          simpa using hb

/-- Auxiliary for C10: the depth-first root search only collects cells that
do not touch a bounding vertex. -/
theorem addRoot_all_notBounding (b1 b2 b3 : Nat) (a : Arena) (search : Nat) :
    ∀ fuel : Nat,
      (∀ (root? : Option Nat) (tris : List Nat) (st : Stamps),
        tris.all (notBounding b1 b2 b3 a) = true →
        ((addRoot b1 b2 b3 a search fuel root? tris st).2.1.all
          (notBounding b1 b2 b3 a)) = true) ∧
      (∀ (ns : List (Option Nat)) (tris : List Nat) (st : Stamps),
        tris.all (notBounding b1 b2 b3 a) = true →
        ((addRootLoop b1 b2 b3 a search fuel ns tris st).2.1.all
          (notBounding b1 b2 b3 a)) = true) := by
  intro fuel
  induction fuel with
  | zero => exact ⟨fun _ _ _ h => h, fun _ _ _ h => h⟩
  | succ n ih =>
    constructor
    · intro root? tris st h
      have h1 := addTriangle_all_notBounding b1 b2 b3 a search tris st root? h
      unfold addRoot
      by_cases hk : (addTriangle b1 b2 b3 a search tris st root?).2.2 = true
      · simpa [hk] using h1
      · simp only [hk, Bool.false_eq_true, if_false, reduceIte]
        split
        · exact h1
        · split
          · exact h1
          · exact ih.2 _ _ _ h1
    · intro ns tris st h
      cases ns with
      | nil => exact h
      | cons n? rest =>
        unfold addRootLoop
        dsimp only
        cases n? with
        | none => exact ih.2 rest tris st h
        | some m =>
          by_cases hs : stampOf st m = some search
          · simpa [hs] using ih.2 rest tris st h
          · have h1 := ih.1 (some m) tris st h
            simp only [hs, if_false, reduceIte]
            by_cases hr : (addRoot b1 b2 b3 a search n (some m) tris st).1 = true
            · simpa [hr] using h1
            · simp only [hr, Bool.false_eq_true, if_false, reduceIte]
              exact ih.2 rest _ _ h1

/-- Auxiliary for C10: `addNeighbors` preserves the harvest filter. -/
theorem addNeighbors_all_notBounding (b1 b2 b3 : Nat) (a : Arena) (search : Nat)
    (tris : List Nat) (st : Stamps) (t : Nat)
    (h : tris.all (notBounding b1 b2 b3 a) = true) :
    ((addNeighbors b1 b2 b3 a search tris st t).1.all
      (notBounding b1 b2 b3 a)) = true := by
  unfold addNeighbors
  exact addTriangle_all_notBounding _ _ _ _ _ _ _ _
    (addTriangle_all_notBounding _ _ _ _ _ _ _ _
      (addTriangle_all_notBounding _ _ _ _ _ _ _ _ h))

/-- Auxiliary for C10: the breadth-first expansion preserves the harvest
filter. -/
theorem expandLoop_all_notBounding (b1 b2 b3 : Nat) (a : Arena) (search : Nat) :
    ∀ (fuel i : Nat) (tris : List Nat) (st : Stamps),
      tris.all (notBounding b1 b2 b3 a) = true →
      ((expandLoop b1 b2 b3 a search fuel i tris st).1.all
        (notBounding b1 b2 b3 a)) = true := by
  intro fuel
  induction fuel with
  | zero => exact fun _ _ _ h => h
  | succ n ih =>
    intro i tris st h
    unfold expandLoop
    dsimp only
    by_cases hi : i < tris.length
    · simp only [hi, if_true, reduceIte]
      exact ih (i + 1) _ _ (addNeighbors_all_notBounding b1 b2 b3 a search tris st _ h)
    · simpa [hi] using h

/-- Auxiliary for C10: a neighbor scan over `null` links collects
nothing. -/
theorem addRootLoop_nones (b1 b2 b3 : Nat) (a : Arena) (search : Nat) :
    ∀ (fuel : Nat) (ns : List (Option Nat)), (∀ x ∈ ns, x = none) →
      ∀ (tris : List Nat) (st : Stamps),
        addRootLoop b1 b2 b3 a search fuel ns tris st = (false, tris, st) := by
  intro fuel
  induction fuel with
  | zero => intro ns _ tris st; cases ns <;> rfl
  | succ n ih =>
    intro ns h tris st
    cases ns with
    | nil => rfl
    | cons n? rest =>
      have hn : n? = none := h n? (List.mem_cons_self n? rest)
      subst hn
      exact ih rest (fun x hx => h x (List.mem_cons_of_mem none hx)) tris st

/-- Auxiliary for C10: expanding an empty collection is a no-op. -/
theorem expandLoop_nil (b1 b2 b3 : Nat) (a : Arena) (search : Nat) :
    ∀ (fuel i : Nat) (st : Stamps),
      expandLoop b1 b2 b3 a search fuel i [] st = ([], st) := by
  intro fuel i st
  cases fuel with
  | zero => rfl
  | succ n => simp [expandLoop]

/-- C10: on a freshly constructed engine `getTriangles` returns the empty
collection — the only cell is the bounding triangle, which is filtered out
because its forming points are the three synthetic bounding points — and,
in any engine state whatsoever, every cell the harvest returns avoids all
three bounding-point ids (identity comparison), so the synthetic triangle
and its derivatives are never exposed. -/
theorem fresh_harvest_empty_and_bounding_always_filtered :
    (∀ (K : Type) [LinearOrderedField K] (mnx mxx mny mxy sd s3 : K) (fuel : Nat),
      (getTriangles fuel (delaunayInit mnx mxx mny mxy sd s3)).1 = []) ∧
    (∀ (K : Type) [LinearOrderedField K] (fuel : Nat) (s : DState K),
      ((getTriangles fuel s).1.all
        (notBounding s.b1 s.b2 s.b3 s.arena)) = true) := by
  constructor
  · intro K _ mnx mxx mny mxy sd s3 fuel
    show (collectTriangles 0 1 2 [(0, ⟨0, 1, 2, none, none, none⟩)] fuel 0
      (some 0) []).1 = []
    cases fuel with
    | zero => rfl
    | succ n =>
      unfold collectTriangles
      have h1 : addRoot 0 1 2 [(0, ⟨0, 1, 2, none, none, none⟩)] 0 (n + 1)
          (some 0) [] [] = (false, [], [(0, 0)]) := by
        unfold addRoot
        simp only [addTriangle, stampOf, setStamp, alookup]
        exact addRootLoop_nones 0 1 2 _ 0 n [none, none, none] (by simp) [] [(0, 0)]
      rw [h1]
      exact congrArg Prod.fst (expandLoop_nil 0 1 2 _ 0 (n + 1) 0 [(0, 0)])
  · intro K _ fuel s
    unfold getTriangles collectTriangles
    exact expandLoop_all_notBounding _ _ _ _ _ _ _ _ _
      ((addRoot_all_notBounding _ _ _ _ _ fuel).1 _ _ _ rfl)

set_option maxHeartbeats 1000000 in
/-- C6: any point of the bounding box lies strictly inside the bounding
triangle the constructor builds, in exact arithmetic: the containment
system's barycentric coordinates satisfy `u > 0`, `v > 0`, `u + v < 1`
(and in particular the inclusive `isPointInTriangle` test holds).
`sd` and `s3` stand for the two `Math.sqrt` results, pinned by their
defining equations. -/
theorem bounding_triangle_strictly_contains_box {K : Type} [LinearOrderedField K]
    (mnx mxx mny mxy sd s3 x y : K)
    (hx1 : mnx < mxx) (hy1 : mny < mxy)
    (hs3pos : 0 < s3) (hs3 : s3 ^ 2 = 3)
    (hsd0 : 0 ≤ sd)
    (hsd : sd ^ 2 = calculateDistanceSquarePlane ⟨mnx, mny, 0⟩ ⟨mxx, mxy, 0⟩)
    (hxl : mnx ≤ x) (hxu : x ≤ mxx) (hyl : mny ≤ y) (hyu : y ≤ mxy) :
    let s := delaunayInit mnx mxx mny mxy sd s3
    let p1 := coordOf s.coords 0
    let p2 := coordOf s.coords 1
    let p3 := coordOf s.coords 2
    let d := containDenom p1 p2 p3
    d ≠ 0 ∧ 0 < containUNum p1 p2 p3 x y / d ∧ 0 < containVNum p1 p2 p3 x y / d ∧
      containUNum p1 p2 p3 x y / d + containVNum p1 p2 p3 x y / d < 1 ∧
      isPointInTriangle p1 p2 p3 x y = true := by
  intro s p1 p2 p3 d
  have hsd : sd ^ 2 = (mxx - mnx) ^ 2 + (mxy - mny) ^ 2 := by
    rw [hsd]
    show (mxx - mnx) * (mxx - mnx) + (mxy - mny) * (mxy - mny) = _
    ring
  have hs3ne : s3 ≠ 0 := ne_of_gt hs3pos
  have ha : 0 < mxx - mnx := sub_pos.2 hx1
  have hb : 0 < mxy - mny := sub_pos.2 hy1
  have hsdpos : 0 < sd := by nlinarith [sq_nonneg (mxx - mnx), sq_nonneg (mxy - mny)]
  have hsa : mxx - mnx < sd := by nlinarith
  have hsb : mxy - mny < sd := by nlinarith
  have hs3lb : 17 / 10 < s3 := by nlinarith
  have hside : 6 * (sd / 2) * (3 / 2) / s3 = 3 / 2 * sd * s3 := by
    rw [div_eq_iff hs3ne]
    linear_combination (-(3 / 2) * sd) * hs3
  have hp1 : p1 = ⟨(mnx + mxx) / 2 - 3 / 2 * sd * s3 / 2,
      (mny + mxy) / 2 - sd / 2, 0⟩ := by
    show (⟨(mnx + mxx) / 2 - 6 * (sd / 2) * (3 / 2) / s3 / 2,
      (mny + mxy) / 2 - sd / 2, 0⟩ : Pt K) = _
    rw [hside]
  have hp2 : p2 = ⟨(mnx + mxx) / 2, (mny + mxy) / 2 + 9 / 4 * sd, 0⟩ := by
    show (⟨(mnx + mxx) / 2,
      (mny + mxy) / 2 + 6 * (sd / 2) * (3 / 2) / s3 * s3 / 2, 0⟩ : Pt K) = _
    rw [hside, show 3 / 2 * sd * s3 * s3 / 2 = 9 / 4 * sd from by
      linear_combination 3 / 4 * sd * hs3]
  have hp3 : p3 = ⟨(mnx + mxx) / 2 + 3 / 2 * sd * s3 / 2,
      (mny + mxy) / 2 - sd / 2, 0⟩ := by
    show (⟨(mnx + mxx) / 2 + 6 * (sd / 2) * (3 / 2) / s3 / 2,
      (mny + mxy) / 2 - sd / 2, 0⟩ : Pt K) = _
    rw [hside]
  have hdval : d = 33 / 8 * sd ^ 2 * s3 := by
    show containDenom p1 p2 p3 = _
    rw [hp1, hp2, hp3]
    unfold containDenom
    dsimp only
    ring
  have hdpos : 0 < d := by
    rw [hdval]; positivity
  have huval : containUNum p1 p2 p3 x y =
      3 / 2 * sd * s3 * (y - (mny + mxy) / 2 + sd / 2) := by
    rw [hp1, hp2, hp3]
    unfold containUNum
    dsimp only
    ring
  have hvval : containVNum p1 p2 p3 x y =
      11 / 4 * sd * (x - (mnx + mxx) / 2) - 3 / 4 * sd * s3 * (y - (mny + mxy) / 2)
        + 27 / 16 * sd ^ 2 * s3 := by
    rw [hp1, hp2, hp3]
    unfold containVNum
    dsimp only
    ring
  have hupos : 0 < containUNum p1 p2 p3 x y := by
    rw [huval]
    have h1 : 0 < y - (mny + mxy) / 2 + sd / 2 := by linarith
    have h2 : (0 : K) < 3 / 2 * sd * s3 := by positivity
    exact mul_pos h2 h1
  have hvpos : 0 < containVNum p1 p2 p3 x y := by
    rw [hvval]
    nlinarith [mul_pos (sub_pos.2 hsa) hs3pos, mul_pos (sub_pos.2 hsb) hs3pos,
      mul_pos hsdpos hs3pos, mul_pos (mul_pos hsdpos hsdpos) hs3pos,
      mul_pos hsdpos (sub_pos.2 hs3lb), mul_lt_mul_of_pos_left hsb hsdpos,
      mul_lt_mul_of_pos_left hsa hsdpos,
      mul_pos (mul_pos hsdpos hs3pos) (sub_pos.2 hsb),
      mul_pos (mul_pos hsdpos hs3pos) (sub_pos.2 hsa)]
  have hsumlt : containUNum p1 p2 p3 x y + containVNum p1 p2 p3 x y < d := by
    rw [huval, hvval, hdval]
    nlinarith [mul_pos (sub_pos.2 hsa) hs3pos, mul_pos (sub_pos.2 hsb) hs3pos,
      mul_pos hsdpos hs3pos, mul_pos (mul_pos hsdpos hsdpos) hs3pos,
      mul_pos hsdpos (sub_pos.2 hs3lb), mul_lt_mul_of_pos_left hsb hsdpos,
      mul_lt_mul_of_pos_left hsa hsdpos,
      mul_pos (mul_pos hsdpos hs3pos) (sub_pos.2 hsb),
      mul_pos (mul_pos hsdpos hs3pos) (sub_pos.2 hsa)]
  have hdne : d ≠ 0 := ne_of_gt hdpos
  refine ⟨hdne, div_pos hupos hdpos, div_pos hvpos hdpos, ?_, ?_⟩
  · rw [div_add_div_same, div_lt_one hdpos]
    exact hsumlt
  · unfold isPointInTriangle
    have hdc : containDenom p1 p2 p3 ≠ 0 := hdne
    simp only [nadiv, hdc, if_false, reduceIte]
    simp only [Bool.and_eq_true, decide_eq_true_eq]
    refine ⟨⟨le_of_lt (div_pos hupos hdpos), le_of_lt (div_pos hvpos hdpos)⟩, ?_⟩
    rw [div_add_div_same]
    exact le_of_lt ((div_lt_one hdpos).2 hsumlt)

/-- Witness for C6 over the reals: box (0, 3) × (0, 4), whose diagonal
`Math.sqrt` value is exactly 5, the exact `Math.sqrt 3`, and the box
point (1, 1). -/
theorem bounding_triangle_strictly_contains_box_witness :
    let s := delaunayInit (0 : ℝ) 3 0 4 5 (Real.sqrt 3)
    let p1 := coordOf s.coords 0
    let p2 := coordOf s.coords 1
    let p3 := coordOf s.coords 2
    let d := containDenom p1 p2 p3
    d ≠ 0 ∧ 0 < containUNum p1 p2 p3 1 1 / d ∧ 0 < containVNum p1 p2 p3 1 1 / d ∧
      containUNum p1 p2 p3 1 1 / d + containVNum p1 p2 p3 1 1 / d < 1 ∧
      isPointInTriangle p1 p2 p3 1 1 = true :=
  bounding_triangle_strictly_contains_box (0 : ℝ) 3 0 4 5 (Real.sqrt 3) 1 1
    (by norm_num) (by norm_num)
    (Real.sqrt_pos.2 (by norm_num))
    (Real.sq_sqrt (by norm_num))
    (by norm_num)
    (by unfold calculateDistanceSquarePlane; norm_num)
    (by norm_num) (by norm_num) (by norm_num) (by norm_num)

/-- Witness for the C7 amended theorem at the concrete collinear triple. -/
theorem degenerate_denominator_propagates_witness :
    (calculateCircumcentre colA colB colC).x = none ∧
    (calculateCircumcentre colA colB colC).y = none ∧
    distToCircumcenterO colA colB colC ⟨3, 7, 0⟩ = none ∧
    strictlyLessThanO (distToCircumcenterO colA colB colC ⟨3, 7, 0⟩)
      (radiusO colA colB colC) = false ∧
    isPointInTriangle colA colB colC (3 : ℚ) 7 = false :=
  degenerate_denominator_propagates colA colB colC ⟨3, 7, 0⟩ 3 7
    (by with_unfolding_all rfl) (by with_unfolding_all rfl)

/-- C8 (counterexample): the claim states that a point whose planar
projection coincides with an existing vertex is detected before insertion
and rejected, leaving the mesh unchanged.  It is false: on the engine built
over the box (0,3)×(0,4) (run exactly in ℚ(√3)) with (1,1,0) already
inserted, inserting (1,1,7) — identical planar projection, different
elevation — changes the mesh; no check exists and `insert` has no error
outcome at all. -/
theorem duplicate_planar_point_not_rejected :
    (coordOf c8s1.coords 3).x = 1 ∧ (coordOf c8s1.coords 3).y = 1 ∧
    (coordOf c8s2.coords 4).x = (coordOf c8s2.coords 3).x ∧
    (coordOf c8s2.coords 4).y = (coordOf c8s2.coords 3).y ∧
    (coordOf c8s2.coords 4).z ≠ (coordOf c8s2.coords 3).z ∧
    c8s2 ≠ c8s1 := by
  with_unfolding_all decide

/-- C8 (amended): the engine performs no duplicate-projection check.  The
planar duplicate is located like any other point — it lies on the boundary
of the current root cell, which the inclusive containment test accepts —
and split into the mesh: the cell count grows from 3 to 5 exactly as for
any ordinary insertion, and the root moves to the first new child. -/
theorem duplicate_planar_point_split_like_any_other :
    c8s0.arena.length = 1 ∧ c8s1.arena.length = 3 ∧ c8s2.arena.length = 5 ∧
    c8s2.root = some c8s1.nextCellId ∧ c8s2.nextPtId = c8s1.nextPtId + 1 := by
  with_unfolding_all decide

set_option maxHeartbeats 4000000 in
/-- C1: refuted on a concrete run.  On the box (0, 3) × (0, 4), after
inserting (11/8, 1/4), (281/200, 1/4) and (5/7, 2/7) (pairwise distinct,
strictly inside the box), the third insert call completes with cell 4 —
vertices point 3 = (11/8, 1/4), bounding vertex 1 and point 4 =
(281/200, 1/4) — reachable from the root in two neighbor steps, while the
inserted point 5 = (5/7, 2/7) is not a vertex of cell 4 and satisfies
d + 0.00001·|d| < r² against cell 4's circumcircle: the claimed Delaunay
property does not hold after the insertion settles. -/
theorem delaunay_property_violated_after_settling :
    c1s3.root = some 7 ∧
    (cellOf c1s3.arena 7).n1 = some 8 ∧
    (cellOf c1s3.arena 8).n1 = some 4 ∧
    alookup c1s3.arena 4 = some ⟨3, 1, 4, some 8, some 5, some 6⟩ ∧
    List.lookup 5 c1s3.coords = some ⟨5 / 7, 2 / 7, 0⟩ ∧
    (5 ∉ (cellOf c1s3.arena 4).ptList) ∧
    strictlyLessThanO
      (distToCircumcenterO (coordOf c1s3.coords 3) (coordOf c1s3.coords 1)
        (coordOf c1s3.coords 4) (coordOf c1s3.coords 5))
      (radiusO (coordOf c1s3.coords 3) (coordOf c1s3.coords 1)
        (coordOf c1s3.coords 4)) = true := by
  with_unfolding_all decide

/-! ## C9 — stamp bounds and harvest determinism -/

/-- Reading a stamp after writing one. -/
theorem stampOf_setStamp (st : Stamps) (t s c : Nat) :
    stampOf (setStamp st t s) c = if c = t then some s else stampOf st c := by
  unfold stampOf setStamp
  by_cases h : c = t
  · subst h
    simp [List.lookup]
  · have hb : (c == t) = false := by simpa using h
    simp [List.lookup, hb, h]

/-- `StampsBelow` is monotone in the bound. -/
theorem stampsBelow_mono {st : Stamps} {m n : Nat} (h : StampsBelow st m)
    (hmn : m ≤ n) : StampsBelow st n :=
  fun c v hv => lt_of_lt_of_le (h c v hv) hmn

/-- Writing a stamp below the bound preserves `StampsBelow`. -/
theorem stampsBelow_setStamp {st : Stamps} {n : Nat} (h : StampsBelow st n)
    {t s : Nat} (hs : s < n) : StampsBelow (setStamp st t s) n := by
  intro c v hv
  rw [stampOf_setStamp] at hv
  by_cases hc : c = t
  · rw [if_pos hc] at hv
    cases hv
    exact hs
  · rw [if_neg hc] at hv
    exact h c v hv

/-- `addTriangle` stamps only with the current pass id. -/
theorem addTriangle_stampsBelow (b1 b2 b3 : Nat) (a : Arena) (search : Nat)
    (tris : List Nat) (st : Stamps) (t? : Option Nat) {n : Nat}
    (h : StampsBelow st n) (hs : search < n) :
    StampsBelow (addTriangle b1 b2 b3 a search tris st t?).2.1 n := by
  unfold addTriangle
  cases t? with
  | none => exact h
  | some t =>
    dsimp only
    by_cases h1 : stampOf st t = some search
    · rw [if_pos h1]
      exact h
    · rw [if_neg h1]
      rcases hl : alookup a t with _ | c <;> simp only [hl]
      · exact stampsBelow_setStamp h hs
      · split
        · exact stampsBelow_setStamp h hs
        · exact stampsBelow_setStamp h hs

/-- The DFS phase stamps only with the current pass id. -/
theorem addRoot_stampsBelow (b1 b2 b3 : Nat) (a : Arena) (search : Nat)
    {n : Nat} (hs : search < n) :
    ∀ fuel : Nat,
      (∀ (root? : Option Nat) (tris : List Nat) (st : Stamps), StampsBelow st n →
        StampsBelow (addRoot b1 b2 b3 a search fuel root? tris st).2.2 n) ∧
      (∀ (ns : List (Option Nat)) (tris : List Nat) (st : Stamps), StampsBelow st n →
        StampsBelow (addRootLoop b1 b2 b3 a search fuel ns tris st).2.2 n) := by
  intro fuel
  induction fuel with
  | zero => exact ⟨fun _ _ _ h => h, fun _ _ _ h => h⟩
  | succ m ih =>
    constructor
    · intro root? tris st h
      have h1 := addTriangle_stampsBelow b1 b2 b3 a search tris st root? h hs
      unfold addRoot
      dsimp only
      by_cases hk : (addTriangle b1 b2 b3 a search tris st root?).2.2 = true
      · simpa [hk] using h1
      · simp only [hk, Bool.false_eq_true, if_false, reduceIte]
        split
        · exact h1
        · split
          · exact h1
          · exact ih.2 _ _ _ h1
    · intro ns tris st h
      cases ns with
      | nil => exact h
      | cons n? rest =>
        unfold addRootLoop
        cases n? with
        | none => exact ih.2 rest tris st h
        | some m2 =>
          by_cases h2 : stampOf st m2 = some search
          · simpa [h2] using ih.2 rest tris st h
          · have h3 := ih.1 (some m2) tris st h
            simp only [h2, if_false, reduceIte]
            by_cases hr : (addRoot b1 b2 b3 a search m (some m2) tris st).1 = true
            · simpa [hr] using h3
            · simp only [hr, Bool.false_eq_true, if_false, reduceIte]
              exact ih.2 rest _ _ h3

/-- `addNeighbors` stamps only with the current pass id. -/
theorem addNeighbors_stampsBelow (b1 b2 b3 : Nat) (a : Arena) (search : Nat)
    (tris : List Nat) (st : Stamps) (t : Nat) {n : Nat}
    (h : StampsBelow st n) (hs : search < n) :
    StampsBelow (addNeighbors b1 b2 b3 a search tris st t).2 n := by
  unfold addNeighbors
  exact addTriangle_stampsBelow _ _ _ _ _ _ _ _
    (addTriangle_stampsBelow _ _ _ _ _ _ _ _
      (addTriangle_stampsBelow _ _ _ _ _ _ _ _ h hs) hs) hs

/-- The expansion phase stamps only with the current pass id. -/
theorem expandLoop_stampsBelow (b1 b2 b3 : Nat) (a : Arena) (search : Nat)
    {n : Nat} (hs : search < n) :
    ∀ (fuel i : Nat) (tris : List Nat) (st : Stamps), StampsBelow st n →
      StampsBelow (expandLoop b1 b2 b3 a search fuel i tris st).2 n := by
  intro fuel
  induction fuel with
  | zero => exact fun _ _ _ h => h
  | succ m ih =>
    intro i tris st h
    unfold expandLoop
    by_cases hi : i < tris.length
    · simp only [hi, if_true, reduceIte]
      exact ih _ _ _ (addNeighbors_stampsBelow b1 b2 b3 a search tris st _ h hs)
    · simpa [hi] using h

/-- `collectTriangles` stamps only with the current pass id. -/
theorem collectTriangles_stampsBelow (b1 b2 b3 : Nat) (a : Arena)
    (fuel search : Nat) (root? : Option Nat) (st : Stamps) {n : Nat}
    (h : StampsBelow st n) (hs : search < n) :
    StampsBelow (collectTriangles b1 b2 b3 a fuel search root? st).2 n := by
  unfold collectTriangles
  exact expandLoop_stampsBelow b1 b2 b3 a search hs fuel 0 _ _
    ((addRoot_stampsBelow b1 b2 b3 a search hs fuel).1 root? [] st h)

/-- The locator's expansion loop stamps only with the current pass id. -/
theorem fctExpand_stampsBelow {K : Type} [LinearOrderedField K]
    (cmp : Nat → Nat → K) (search : Nat) {n : Nat} (hs : search < n) :
    ∀ (ns : List (Option Nat)) (q : JsQueue Nat) (st : Stamps), StampsBelow st n →
      StampsBelow (fctExpand cmp search ns q st).2 n := by
  intro ns
  induction ns with
  | nil => exact fun _ _ h => h
  | cons n? rest ih =>
    intro q st h
    cases n? with
    | none => exact ih q st h
    | some m =>
      unfold fctExpand
      by_cases h2 : stampOf st m = some search
      · simpa [h2] using ih q st h
      · simp only [h2, if_false, reduceIte]
        exact ih _ _ (stampsBelow_setStamp h hs)

/-- The search loop stamps only with the current pass id. -/
theorem fctLoop_stampsBelow {K : Type} [LinearOrderedField K] (a : Arena)
    (m : List (Nat × Pt K)) (search : Nat) (x y : K) {n : Nat} (hs : search < n) :
    ∀ (fuel : Nat) (q : JsQueue Nat) (st : Stamps), StampsBelow st n →
      StampsBelow (fctLoop a m search x y fuel q st).2 n := by
  intro fuel
  induction fuel with
  | zero => exact fun _ _ h => h
  | succ k ih =>
    intro q st h
    unfold fctLoop
    by_cases he : qisEmpty q = true
    · simpa [he] using h
    · simp only [he, Bool.false_eq_true, if_false, reduceIte]
      by_cases hc : containsPointId a m
          (qpop (compareTriangles m ⟨x, y, 0⟩ a) q).1 x y = true
      · simpa [hc] using h
      · simp only [hc, Bool.false_eq_true, if_false, reduceIte]
        exact ih _ _ (fctExpand_stampsBelow _ search hs _ _ _ h)

/-- `findContainingTriangle` stamps only with the current pass id. -/
theorem findContainingTriangle_stampsBelow {K : Type} [LinearOrderedField K]
    (fuel : Nat) (a : Arena) (m : List (Nat × Pt K)) (search : Nat)
    (root? : Option Nat) (x y : K) (st : Stamps) {n : Nat}
    (h : StampsBelow st n) (hs : search < n) :
    StampsBelow (findContainingTriangle fuel a m search root? x y st).2 n := by
  unfold findContainingTriangle
  cases root? with
  | none => exact h
  | some r =>
    by_cases h1 : stampOf st r = some search
    · simpa [h1] using h
    · simp only [h1, if_false, reduceIte]
      exact fctLoop_stampsBelow a m search x y hs fuel _ st h

/-- The stamps and pass counter `insertOne` ends with. -/
theorem insertOne_stamps_search {K : Type} [LinearOrderedField K]
    (fuel : Nat) (s : DState K) (c : Pt K) :
    (insertOne fuel s c).stamps =
      (findContainingTriangle fuel s.arena ((s.nextPtId, c) :: s.coords)
        s.search s.root c.x c.y s.stamps).2 ∧
    (insertOne fuel s c).search = s.search + 1 := by
  unfold insertOne
  dsimp only
  split <;> exact ⟨rfl, rfl⟩

/-- The stamp invariant: every recorded stamp is below the pass counter. -/
theorem stampInv_insertOne {K : Type} [LinearOrderedField K]
    {s : DState K} (h : StampsBelow s.stamps s.search) (fuel : Nat) (c : Pt K) :
    StampsBelow (insertOne fuel s c).stamps (insertOne fuel s c).search := by
  rw [(insertOne_stamps_search fuel s c).1, (insertOne_stamps_search fuel s c).2]
  exact findContainingTriangle_stampsBelow fuel _ _ _ _ _ _ _
    (stampsBelow_mono h (Nat.le_succ _)) (Nat.lt_succ_self _)

/-- The stamp invariant is preserved by `insert` over a point list. -/
theorem stampInv_dinsert {K : Type} [LinearOrderedField K]
    (fuel : Nat) (ps : List (Pt K)) :
    ∀ s : DState K, StampsBelow s.stamps s.search →
      StampsBelow (dinsert fuel s ps).stamps (dinsert fuel s ps).search := by
  induction ps with
  | nil => exact fun _ h => h
  | cons c rest ih =>
    intro s h
    exact ih (insertOne fuel s c) (stampInv_insertOne h fuel c)

/-- The stamp invariant is preserved by the harvest. -/
theorem stampInv_getTriangles {K : Type} [LinearOrderedField K]
    {s : DState K} (h : StampsBelow s.stamps s.search) (fuel : Nat) :
    StampsBelow ((getTriangles fuel s).2).stamps ((getTriangles fuel s).2).search := by
  show StampsBelow
    (collectTriangles s.b1 s.b2 s.b3 s.arena fuel s.search s.root s.stamps).2
    (s.search + 1)
  exact collectTriangles_stampsBelow _ _ _ _ _ _ _ _
    (stampsBelow_mono h (Nat.le_succ _)) (Nat.lt_succ_self _)

/-- Every reachable engine state satisfies the stamp invariant. -/
theorem reachable_stampInv {K : Type} [LinearOrderedField K]
    {s : DState K} (h : Reachable s) : StampsBelow s.stamps s.search := by
  induction h with
  | init mnx mxx mny mxy sd s3 =>
    intro c v hv
    cases hv
  | step_insert fuel ps _ ih => exact stampInv_dinsert fuel ps _ ih
  | step_collect fuel _ ih => exact stampInv_getTriangles ih fuel

/-- Writing the respective current pass ids preserves the agreement
relation. -/
theorem stampRel_setStamp {st1 st2 : Stamps} {s1 s2 : Nat}
    (hR : StampRel st1 s1 st2 s2) (t : Nat) :
    StampRel (setStamp st1 t s1) s1 (setStamp st2 t s2) s2 := by
  intro c
  rw [stampOf_setStamp, stampOf_setStamp]
  by_cases hc : c = t
  · simp [hc]
  · simp only [if_neg hc]
    exact hR c

/-- `addTriangle` behaves identically under stamp agreement. -/
theorem addTriangle_det (b1 b2 b3 : Nat) (a : Arena) (tris : List Nat)
    (t? : Option Nat) {s1 s2 : Nat} {st1 st2 : Stamps}
    (hR : StampRel st1 s1 st2 s2) :
    (addTriangle b1 b2 b3 a s1 tris st1 t?).1 =
      (addTriangle b1 b2 b3 a s2 tris st2 t?).1 ∧
    (addTriangle b1 b2 b3 a s1 tris st1 t?).2.2 =
      (addTriangle b1 b2 b3 a s2 tris st2 t?).2.2 ∧
    StampRel (addTriangle b1 b2 b3 a s1 tris st1 t?).2.1 s1
      (addTriangle b1 b2 b3 a s2 tris st2 t?).2.1 s2 := by
  unfold addTriangle
  cases t? with
  | none => exact ⟨rfl, rfl, hR⟩
  | some t =>
    dsimp only
    by_cases h1 : stampOf st1 t = some s1
    · have h2 : stampOf st2 t = some s2 := (hR t).1 h1
      rw [if_pos h1, if_pos h2]
      exact ⟨rfl, rfl, hR⟩
    · have h2 : ¬ stampOf st2 t = some s2 := fun hc => h1 ((hR t).2 hc)
      rw [if_neg h1, if_neg h2]
      rcases hl : alookup a t with _ | c <;> simp only [hl]
      · exact ⟨by trivial, by trivial, stampRel_setStamp hR t⟩
      · split
        · exact ⟨by trivial, by trivial, stampRel_setStamp hR t⟩
        · exact ⟨by trivial, by trivial, stampRel_setStamp hR t⟩

/-- The DFS phase behaves identically under stamp agreement. -/
theorem addRoot_det (b1 b2 b3 : Nat) (a : Arena) {s1 s2 : Nat} :
    ∀ fuel : Nat,
      (∀ (root? : Option Nat) (tris : List Nat) (st1 st2 : Stamps),
        StampRel st1 s1 st2 s2 →
        (addRoot b1 b2 b3 a s1 fuel root? tris st1).1 =
          (addRoot b1 b2 b3 a s2 fuel root? tris st2).1 ∧
        (addRoot b1 b2 b3 a s1 fuel root? tris st1).2.1 =
          (addRoot b1 b2 b3 a s2 fuel root? tris st2).2.1 ∧
        StampRel (addRoot b1 b2 b3 a s1 fuel root? tris st1).2.2 s1
          (addRoot b1 b2 b3 a s2 fuel root? tris st2).2.2 s2) ∧
      (∀ (ns : List (Option Nat)) (tris : List Nat) (st1 st2 : Stamps),
        StampRel st1 s1 st2 s2 →
        (addRootLoop b1 b2 b3 a s1 fuel ns tris st1).1 =
          (addRootLoop b1 b2 b3 a s2 fuel ns tris st2).1 ∧
        (addRootLoop b1 b2 b3 a s1 fuel ns tris st1).2.1 =
          (addRootLoop b1 b2 b3 a s2 fuel ns tris st2).2.1 ∧
        StampRel (addRootLoop b1 b2 b3 a s1 fuel ns tris st1).2.2 s1
          (addRootLoop b1 b2 b3 a s2 fuel ns tris st2).2.2 s2) := by
  intro fuel
  induction fuel with
  | zero => exact ⟨fun _ _ _ _ hR => ⟨rfl, rfl, hR⟩, fun _ _ _ _ hR => ⟨rfl, rfl, hR⟩⟩
  | succ m ih =>
    constructor
    · intro root? tris st1 st2 hR
      obtain ⟨e1, e2, hrel⟩ := addTriangle_det b1 b2 b3 a tris root? hR
      unfold addRoot
      dsimp only
      by_cases hk : (addTriangle b1 b2 b3 a s1 tris st1 root?).2.2 = true
      · have hk2 : (addTriangle b1 b2 b3 a s2 tris st2 root?).2.2 = true :=
          e2 ▸ hk
        rw [if_pos hk, if_pos hk2]
        exact ⟨rfl, e1, hrel⟩
      · have hk2 : ¬ (addTriangle b1 b2 b3 a s2 tris st2 root?).2.2 = true :=
          fun hc => hk (e2 ▸ hc)
        rw [if_neg hk, if_neg hk2]
        cases root? with
        | none => exact ⟨rfl, e1, hrel⟩
        | some rt =>
          rcases hl : alookup a rt with _ | c <;> simp only [hl]
          · exact ⟨by trivial, e1, hrel⟩
          · rw [e1]
            exact ih.2 c.nbrList _ _ _ hrel
    · intro ns tris st1 st2 hR
      cases ns with
      | nil => exact ⟨rfl, rfl, hR⟩
      | cons n? rest =>
        unfold addRootLoop
        dsimp only
        cases n? with
        | none => exact ih.2 rest tris st1 st2 hR
        | some m2 =>
          dsimp only
          by_cases h1 : stampOf st1 m2 = some s1
          · have h2 : stampOf st2 m2 = some s2 := (hR m2).1 h1
            rw [if_pos h1, if_pos h2]
            exact ih.2 rest tris st1 st2 hR
          · have h2 : ¬ stampOf st2 m2 = some s2 := fun hc => h1 ((hR m2).2 hc)
            rw [if_neg h1, if_neg h2]
            obtain ⟨f1, f2, frel⟩ := ih.1 (some m2) tris st1 st2 hR
            by_cases hr : (addRoot b1 b2 b3 a s1 m (some m2) tris st1).1 = true
            · have hr2 : (addRoot b1 b2 b3 a s2 m (some m2) tris st2).1 = true :=
                f1 ▸ hr
              rw [if_pos hr, if_pos hr2]
              exact ⟨f1, f2, frel⟩
            · have hr2 : ¬ (addRoot b1 b2 b3 a s2 m (some m2) tris st2).1 = true :=
                fun hc => hr (f1 ▸ hc)
              rw [if_neg hr, if_neg hr2, f2]
              exact ih.2 rest _ _ _ frel

/-- `addNeighbors` behaves identically under stamp agreement. -/
theorem addNeighbors_det (b1 b2 b3 : Nat) (a : Arena) (tris : List Nat)
    (t : Nat) {s1 s2 : Nat} {st1 st2 : Stamps} (hR : StampRel st1 s1 st2 s2) :
    (addNeighbors b1 b2 b3 a s1 tris st1 t).1 =
      (addNeighbors b1 b2 b3 a s2 tris st2 t).1 ∧
    StampRel (addNeighbors b1 b2 b3 a s1 tris st1 t).2 s1
      (addNeighbors b1 b2 b3 a s2 tris st2 t).2 s2 := by
  unfold addNeighbors
  dsimp only
  obtain ⟨e1, _, hrel1⟩ := addTriangle_det b1 b2 b3 a tris (cellOf a t).n0 hR
  rw [e1]
  obtain ⟨e2, _, hrel2⟩ := addTriangle_det b1 b2 b3 a _ (cellOf a t).n1 hrel1
  rw [e2]
  obtain ⟨e3, _, hrel3⟩ := addTriangle_det b1 b2 b3 a _ (cellOf a t).n2 hrel2
  rw [e3]
  exact ⟨rfl, hrel3⟩

/-- The expansion phase behaves identically under stamp agreement. -/
theorem expandLoop_det (b1 b2 b3 : Nat) (a : Arena) {s1 s2 : Nat} :
    ∀ (fuel i : Nat) (tris : List Nat) (st1 st2 : Stamps),
      StampRel st1 s1 st2 s2 →
      (expandLoop b1 b2 b3 a s1 fuel i tris st1).1 =
        (expandLoop b1 b2 b3 a s2 fuel i tris st2).1 := by
  intro fuel
  induction fuel with
  | zero => exact fun _ _ _ _ _ => rfl
  | succ m ih =>
    intro i tris st1 st2 hR
    unfold expandLoop
    dsimp only
    by_cases hi : i < tris.length
    · simp only [hi, if_true, reduceIte]
      obtain ⟨e1, hrel⟩ := addNeighbors_det b1 b2 b3 a tris (tris.getD i 0) hR
      rw [e1]
      exact ih (i + 1) _ _ _ hrel
    · simp only [hi, if_false, reduceIte]

/-- `collectTriangles` returns the same list under stamp agreement. -/
theorem collectTriangles_det (b1 b2 b3 : Nat) (a : Arena) (fuel : Nat)
    (root? : Option Nat) {s1 s2 : Nat} {st1 st2 : Stamps}
    (hR : StampRel st1 s1 st2 s2) :
    (collectTriangles b1 b2 b3 a fuel s1 root? st1).1 =
      (collectTriangles b1 b2 b3 a fuel s2 root? st2).1 := by
  unfold collectTriangles
  dsimp only
  obtain ⟨_, e2, hrel⟩ := (addRoot_det b1 b2 b3 a fuel).1 root? [] st1 st2 hR
  rw [e2]
  exact expandLoop_det b1 b2 b3 a fuel 0 _ _ _ hrel

/-- C9: on every reachable engine state, two consecutive `getTriangles`
calls with no intervening insertion return the same cell list — in
particular the same set of cells compared by vertex triples.  A fresh pass
id can never collide with a recorded stamp (the stamp invariant), so the
second harvest traverses the unchanged mesh identically. -/
theorem consecutive_harvests_return_same_cells {K : Type}
    [LinearOrderedField K] (s : DState K) (h : Reachable s) (fuel : Nat) :
    (getTriangles fuel ((getTriangles fuel s).2)).1 = (getTriangles fuel s).1 ∧
    ((getTriangles fuel ((getTriangles fuel s).2)).1.map
      (fun t => (cellOf ((getTriangles fuel s).2).arena t).ptList)) =
      ((getTriangles fuel s).1.map (fun t => (cellOf s.arena t).ptList)) := by
  have hinv : StampsBelow s.stamps s.search := reachable_stampInv h
  have hbelow : StampsBelow ((getTriangles fuel s).2).stamps (s.search + 1) := by
    show StampsBelow
      (collectTriangles s.b1 s.b2 s.b3 s.arena fuel s.search s.root s.stamps).2
      (s.search + 1)
    exact collectTriangles_stampsBelow _ _ _ _ _ _ _ _
      (stampsBelow_mono hinv (Nat.le_succ _)) (Nat.lt_succ_self _)
  have hR : StampRel ((getTriangles fuel s).2).stamps (s.search + 1)
      s.stamps s.search := by
    intro c
    constructor
    · intro hc
      exact absurd (hbelow c _ hc) (lt_irrefl _)
    · intro hc
      exact absurd (hinv c _ hc) (lt_irrefl _)
  have e : (getTriangles fuel ((getTriangles fuel s).2)).1 =
      (getTriangles fuel s).1 :=
    collectTriangles_det s.b1 s.b2 s.b3 s.arena fuel s.root hR
  refine ⟨e, ?_⟩
  rw [e]
  rfl

/-- Witness for C9: the double harvest agrees with the single harvest on a
concrete freshly initialized engine state. -/
theorem consecutive_harvests_return_same_cells_witness :
    (getTriangles 9 ((getTriangles 9 (delaunayInit (0 : ℚ) 1 0 1 2 2)).2)).1 =
      (getTriangles 9 (delaunayInit (0 : ℚ) 1 0 1 2 2)).1 :=
  (consecutive_harvests_return_same_cells (delaunayInit (0 : ℚ) 1 0 1 2 2)
    (Reachable.init 0 1 0 1 2 2) 9).1

end DT
